import Mathlib

/-
Verification of the desktop-registry core of karousel
(src/lib/world/DesktopManager.ts).

The TypeScript class DesktopManager is shallowly embedded as a state record
together with pure state-transformer functions, one per method of the class.

Modelling decisions, all taken from the source:
- The JS Map<string, Desktop> (field `desktops`, keyed by the string
  activityId|desktopId|screenName) is an association list with unique keys
  in insertion order; Map.get is first-match lookup, Map.set replaces in
  place or appends, Map.delete removes the matching entry.
- A KwinDesktop is represented by its stable id, an Output (screen) by its
  stable name (spec section 6: the host hands out stable-identity values),
  so both dimensions are strings, as is an activity id.
- A Desktop (LogicalDesktop) instance is represented by the Nat identity it
  received at construction time; the state carries a counter of constructed
  instances (nextId) and a log of Desktop.destroy() invocations (destroyed),
  so "same instance" and "destroy was invoked" are expressible.
- JS Sets built from host arrays keep the first occurrence of each element
  (dedup); set membership is structural equality of the string identities.
- The DesktopFilter collaborator is a boolean predicate passed to the
  operations that consult it.
- Generator methods never mutate in the source; they are embedded as
  state-threading functions returning (yielded values, final state) so that
  "iteration leaves the registry unchanged" is a theorem about the
  embedding, not a modelling artifact.
-/

set_option maxHeartbeats 2000000

namespace Karousel

/-- Host compositor state observed through the global Workspace object:
the three authoritative dimension sets and the current selection. -/
structure Workspace where
  activities : List String
  desktops : List String
  screens : List String
  currentActivity : String
  currentDesktop : String
  activeScreen : String
deriving DecidableEq, Repr

/-- The per-client data consumed by the client-resolution paths. -/
structure KwinClient where
  activities : List String
  desktops : List String
  output : String
deriving DecidableEq, Repr

/-- First-match lookup, the behaviour of JS Map.get on string keys. -/
def mapGet : List (String × Nat) → String → Option Nat
  | [], _ => none
  | (k', v) :: rest, k => if k' = k then some v else mapGet rest k

/-- JS Map.set: replace the value at an existing key in place, otherwise
append the new binding at the end (insertion order). -/
def mapSet : List (String × Nat) → String → Nat → List (String × Nat)
  | [], k, v => [(k, v)]
  | (k', v') :: rest, k, v =>
    if k' = k then (k, v) :: rest else (k', v') :: mapSet rest k v

/-- JS Map.delete: remove the binding of the key (keys are unique). -/
def mapDelete (m : List (String × Nat)) (k : String) : List (String × Nat) :=
  m.filter (fun e => !decide (e.1 = k))

/-- Construction of a JS Set from an array: keep the first occurrence of
each element. The auxiliary accumulator holds the elements already seen. -/
def dedupAux : List String → List String → List String
  | _, [] => []
  | seen, x :: xs => if x ∈ seen then dedupAux seen xs else x :: dedupAux (x :: seen) xs

/-- Elements of a host array in first-occurrence order, as iterated by the
JS Set the source builds from it. -/
def dedup (l : List String) : List String := dedupAux [] l

/-- The DesktopManager state: the registry map plus the three cached
dimension snapshots, together with the instance counter and the
Desktop.destroy() invocation log that make lifecycle claims expressible. -/
structure DesktopManager where
  desktops : List (String × Nat)
  kwinActivities : List String
  kwinDesktops : List String
  kwinScreens : List String
  nextId : Nat
  destroyed : List Nat
deriving DecidableEq, Repr

namespace DesktopManager

/-- The constructor: empty map, snapshots taken from the host sets. -/
def init (ws : Workspace) : DesktopManager :=
  { desktops := []
    kwinActivities := dedup ws.activities
    kwinDesktops := dedup ws.desktops
    kwinScreens := dedup ws.screens
    nextId := 0
    destroyed := [] }

/-- getDesktopKey: activity + vertical bar + kwinDesktop.id + vertical bar
+ screen.name. -/
def getDesktopKey (activity kwinDesktop screen : String) : String :=
  activity ++ "|" ++ kwinDesktop ++ "|" ++ screen

/-- addDesktop: construct a new Desktop (fresh instance identity) and
insert it at the coordinate key. -/
def addDesktop (activity kwinDesktop screen : String) (st : DesktopManager) :
    Option Nat × DesktopManager :=
  let key := getDesktopKey activity kwinDesktop screen
  (some st.nextId,
    { st with
      desktops := mapSet st.desktops key st.nextId
      nextId := st.nextId + 1 })

/-- getDesktop: filter gate, then cached lookup, else lazy creation. -/
def getDesktop (flt : String → Bool) (activity kwinDesktop screen : String)
    (st : DesktopManager) : Option Nat × DesktopManager :=
  if flt kwinDesktop = false then (none, st)
  else
    match mapGet st.desktops (getDesktopKey activity kwinDesktop screen) with
    | some desktop => (some desktop, st)
    | none => addDesktop activity kwinDesktop screen st

/-- getCurrentDesktop: resolve at the host's current selection. -/
def getCurrentDesktop (flt : String → Bool) (ws : Workspace) (st : DesktopManager) :
    Option Nat × DesktopManager :=
  getDesktop flt ws.currentActivity ws.currentDesktop ws.activeScreen st

/-- getDesktopInCurrentActivity. -/
def getDesktopInCurrentActivity (flt : String → Bool) (ws : Workspace)
    (kwinDesktop screen : String) (st : DesktopManager) : Option Nat × DesktopManager :=
  getDesktop flt ws.currentActivity kwinDesktop screen st

/-- getDesktopForClient: only a client on exactly one activity and exactly
one virtual desktop resolves. -/
def getDesktopForClient (flt : String → Bool) (c : KwinClient) (st : DesktopManager) :
    Option Nat × DesktopManager :=
  if c.activities.length ≠ 1 ∨ c.desktops.length ≠ 1 then (none, st)
  else getDesktop flt (c.activities.headD "") (c.desktops.headD "") c.output st

/-- The body of destroyDesktop for an already-computed key: look it up, and
if present invoke Desktop.destroy() and delete the binding. -/
def destroyKey (key : String) (st : DesktopManager) : DesktopManager :=
  match mapGet st.desktops key with
  | some desktop =>
    { st with
      destroyed := st.destroyed ++ [desktop]
      desktops := mapDelete st.desktops key }
  | none => st

/-- destroyDesktop: compute the coordinate key and destroy its entry. -/
def destroyDesktop (activity kwinDesktop screen : String) (st : DesktopManager) :
    DesktopManager :=
  destroyKey (getDesktopKey activity kwinDesktop screen) st

/-- removeActivity: destroy the candidate coordinates of the removed
activity over the cached desktop and screen snapshots. -/
def removeActivity (activity : String) (st : DesktopManager) : DesktopManager :=
  st.kwinDesktops.foldl
    (fun acc kwinDesktop =>
      acc.kwinScreens.foldl
        (fun acc2 screen => destroyDesktop activity kwinDesktop screen acc2) acc)
    st

/-- removeKwinDesktop: destroy candidates of the removed virtual desktop
over the cached activity and screen snapshots. -/
def removeKwinDesktop (kwinDesktop : String) (st : DesktopManager) : DesktopManager :=
  st.kwinActivities.foldl
    (fun acc activity =>
      acc.kwinScreens.foldl
        (fun acc2 screen => destroyDesktop activity kwinDesktop screen acc2) acc)
    st

/-- removeScreen: destroy candidates of the removed screen over the cached
activity and desktop snapshots. -/
def removeScreen (screen : String) (st : DesktopManager) : DesktopManager :=
  st.kwinActivities.foldl
    (fun acc activity =>
      acc.kwinDesktops.foldl
        (fun acc2 kwinDesktop => destroyDesktop activity kwinDesktop screen acc2) acc)
    st

/-- updateActivities: remove every cached activity absent from the fresh
host set, then replace the snapshot. -/
def updateActivities (ws : Workspace) (st : DesktopManager) : DesktopManager :=
  let newActivities := dedup ws.activities
  let st1 := st.kwinActivities.foldl
    (fun acc activity =>
      if activity ∈ newActivities then acc else removeActivity activity acc)
    st
  { st1 with kwinActivities := newActivities }

/-- updateDesktops. -/
def updateDesktops (ws : Workspace) (st : DesktopManager) : DesktopManager :=
  let newDesktops := dedup ws.desktops
  let st1 := st.kwinDesktops.foldl
    (fun acc kwinDesktop =>
      if kwinDesktop ∈ newDesktops then acc else removeKwinDesktop kwinDesktop acc)
    st
  { st1 with kwinDesktops := newDesktops }

/-- updateScreens. -/
def updateScreens (ws : Workspace) (st : DesktopManager) : DesktopManager :=
  let newScreens := dedup ws.screens
  let st1 := st.kwinScreens.foldl
    (fun acc screen =>
      if screen ∈ newScreens then acc else removeScreen screen acc)
    st
  { st1 with kwinScreens := newScreens }

/-- destroy: full teardown, invoking Desktop.destroy() on every value of
the map. The source does not clear the map afterwards. -/
def destroy (st : DesktopManager) : DesktopManager :=
  st.desktops.foldl
    (fun acc e => { acc with destroyed := acc.destroyed ++ [e.2] }) st

/-- getAllDesktops: the values of the map, in insertion order. -/
def getAllDesktops (st : DesktopManager) : List Nat :=
  st.desktops.map (fun e => e.2)

/-- One lookup-and-maybe-yield step per candidate key, threading the state
exactly as the generator bodies do (they only ever call Map.get). -/
def collectKeys : List String → DesktopManager → List Nat × DesktopManager
  | [], st => ([], st)
  | k :: rest, st =>
    match mapGet st.desktops k with
    | some desktop =>
      let p := collectKeys rest st
      (desktop :: p.1, p.2)
    | none => collectKeys rest st

/-- getDesktopsOnCurrentDesktopAndActivity: for the host's current
activity/desktop, over the cached screens, yield existing entries only. -/
def getDesktopsOnCurrentDesktopAndActivity (ws : Workspace) (st : DesktopManager) :
    List Nat × DesktopManager :=
  collectKeys
    (st.kwinScreens.map (fun screen =>
      getDesktopKey ws.currentActivity ws.currentDesktop screen))
    st

/-- getDesktops: an empty activities or desktops argument means all cached
values of that dimension; screens are always iterated afresh from the
cached screen set; yields existing entries only. The desktops default is
the result of Set.keys() in the source, a SINGLE-USE iterator: the inner
loop drains it entirely during the first outer (activity) iteration, so
every later activity pairs with an exhausted iterator and yields nothing.
A supplied non-empty desktops array, by contrast, is re-iterated for
every activity. The activities default is also a single-use iterator, but
the outer loop consumes it exactly once, so it behaves like the list. -/
def getDesktops (activities kwinDesktops : List String) (st : DesktopManager) :
    List Nat × DesktopManager :=
  let matchedActivities := if activities.length > 0 then activities else st.kwinActivities
  if kwinDesktops.length > 0 then
    collectKeys
      (matchedActivities.flatMap (fun a =>
        kwinDesktops.flatMap (fun d =>
          st.kwinScreens.map (fun s => getDesktopKey a d s))))
      st
  else
    match matchedActivities with
    | [] => collectKeys [] st
    | a0 :: _ =>
      collectKeys
        (st.kwinDesktops.flatMap (fun d =>
          st.kwinScreens.map (fun s => getDesktopKey a0 d s)))
        st

/-- getDesktopsForClient: the general multi-value query over the client's
association lists. -/
def getDesktopsForClient (c : KwinClient) (st : DesktopManager) :
    List Nat × DesktopManager :=
  getDesktops c.activities c.desktops st

/-- A sequence of getDesktop calls (the state reached after running each
call in turn), used to express properties of call sequences. -/
def runGetDesktops (flt : String → Bool) (calls : List (String × String × String))
    (st : DesktopManager) : DesktopManager :=
  calls.foldl (fun acc c => (getDesktop flt c.1 c.2.1 c.2.2 acc).2) st

/-- Folding the per-key destruction step over an explicit list of
precomputed candidate keys: the reshaped form of the remove* loops. -/
def destroyKeys (ks : List String) (st : DesktopManager) : DesktopManager :=
  ks.foldl (fun acc k => destroyKey k acc) st

/-- Candidate keys enumerated by removeActivity for one activity. -/
def prodDS (a : String) (ds ss : List String) : List String :=
  ds.flatMap (fun d => ss.map (fun s => getDesktopKey a d s))

/-- Candidate keys enumerated by removeKwinDesktop for one desktop. -/
def prodAS (d : String) (as ss : List String) : List String :=
  as.flatMap (fun a => ss.map (fun s => getDesktopKey a d s))

/-- Candidate keys enumerated by removeScreen for one screen. -/
def prodAD (s : String) (as ds : List String) : List String :=
  as.flatMap (fun a => ds.map (fun d => getDesktopKey a d s))

/-- All candidate keys of an activity reconciliation pass. -/
def keysOfA (ras ds ss : List String) : List String :=
  ras.flatMap (fun a => prodDS a ds ss)

/-- All candidate keys of a desktop reconciliation pass. -/
def keysOfD (rds as ss : List String) : List String :=
  rds.flatMap (fun d => prodAS d as ss)

/-- All candidate keys of a screen reconciliation pass. -/
def keysOfS (rss as ds : List String) : List String :=
  rss.flatMap (fun s => prodAD s as ds)

/-- The cached values absent from the fresh host set: the values a
reconciliation pass removes. -/
def removedBy (cached fresh : List String) : List String :=
  cached.filter (fun a => !decide (a ∈ fresh))

/-- The candidate keys destroyed by updateActivities on a given state. -/
def removedActivityKeys (ws : Workspace) (st : DesktopManager) : List String :=
  keysOfA (removedBy st.kwinActivities (dedup ws.activities)) st.kwinDesktops st.kwinScreens

/-- The candidate keys destroyed by updateDesktops on a given state. -/
def removedDesktopKeys (ws : Workspace) (st : DesktopManager) : List String :=
  keysOfD (removedBy st.kwinDesktops (dedup ws.desktops)) st.kwinActivities st.kwinScreens

/-- The candidate keys destroyed by updateScreens on a given state. -/
def removedScreenKeys (ws : Workspace) (st : DesktopManager) : List String :=
  keysOfS (removedBy st.kwinScreens (dedup ws.screens)) st.kwinActivities st.kwinDesktops

end DesktopManager

/-- A string free of the vertical-bar separator used by getDesktopKey. -/
def noBar (x : String) : Prop := '|' ∉ x.data

instance (x : String) : Decidable (noBar x) := by
  unfold noBar; infer_instance

/-- Well-formed registry states: every entry's key decomposes into
components drawn from the cached snapshots, the cached activity and
desktop identifiers are separator-free, keys are unique (a JS Map
guarantee) and instances are pairwise distinct (fresh construction).
Reconciliation claims hold for such states; the counterexamples show the
code itself does not maintain the component-membership part. -/
def DMwf (st : DesktopManager) : Prop :=
  (∀ p ∈ st.desktops, ∃ a ∈ st.kwinActivities, ∃ d ∈ st.kwinDesktops,
      ∃ s ∈ st.kwinScreens, p.1 = DesktopManager.getDesktopKey a d s) ∧
    (∀ a ∈ st.kwinActivities, noBar a) ∧
    (∀ d ∈ st.kwinDesktops, noBar d) ∧
    (st.desktops.map (fun e => e.1)).Nodup ∧
    (st.desktops.map (fun e => e.2)).Nodup

/-- Host dimension values free of the key separator (true of the real
compositor, whose activity ids are UUIDs and desktop ids opaque ids). -/
def wsNoBars (ws : Workspace) : Prop :=
  (∀ a ∈ ws.activities, noBar a) ∧ (∀ d ∈ ws.desktops, noBar d)

instance (st : DesktopManager) : Decidable (DMwf st) := by
  unfold DMwf; infer_instance

instance (ws : Workspace) : Decidable (wsNoBars ws) := by
  unfold wsNoBars; infer_instance

/-- A filter that manages every desktop. -/
def fltAll : String → Bool := fun _ => true

/-- Host with one activity, one virtual desktop and one screen. -/
def wsABC : Workspace := ⟨["a"], ["d"], ["s"], "a", "d", "s"⟩

/-- Host before the virtual desktop "d" appears. -/
def wsPre : Workspace := ⟨["a"], [], ["s"], "a", "d", "s"⟩

/-- Host with no activities. -/
def wsNoAct : Workspace := ⟨[], ["d"], ["s"], "a", "d", "s"⟩

/-- Registry created while the host had no desktops, then populated at the
coordinate ("a", "d", "s"): its cached desktop snapshot is empty although
an entry for "d" exists. -/
def stStale : DesktopManager :=
  (DesktopManager.getDesktop fltAll "a" "d" "s" (DesktopManager.init wsPre)).2

/-- Registry created while the host had no activities, then populated at
("a", "d", "s"): its cached activity snapshot is empty. -/
def stNoActCache : DesktopManager :=
  (DesktopManager.getDesktop fltAll "a" "d" "s" (DesktopManager.init wsNoAct)).2

/-- Registry with fully populated snapshots and one entry. -/
def stOne : DesktopManager :=
  (DesktopManager.getDesktop fltAll "a" "d" "s" (DesktopManager.init wsABC)).2

/-- Registry whose cached activity snapshot was emptied by a reconciliation
pass after construction. -/
def stDropA : DesktopManager :=
  DesktopManager.updateActivities wsNoAct (DesktopManager.init wsABC)

theorem bar_append_inj {x x' y y' : List Char} (hx : '|' ∉ x) (hx' : '|' ∉ x')
    (h : x ++ '|' :: y = x' ++ '|' :: y') : x = x' ∧ y = y' := by
  induction x generalizing x' with
  | nil =>
    cases x' with
    | nil => simpa using h
    | cons c xs' =>
      exfalso
      have hc : c = '|' := by simpa using (congrArg (fun l => l.head?) h).symm
      exact hx' (by simp [hc])
  | cons c xs ih =>
    cases x' with
    | nil =>
      exfalso
      have hc : c = '|' := by simpa using congrArg (fun l => l.head?) h
      exact hx (by simp [hc])
    | cons c' xs' =>
      have h1 : c = c' ∧ xs ++ '|' :: y = xs' ++ '|' :: y' := by
        constructor
        · simpa using congrArg (fun l => l.head?) h
        · simpa using congrArg (fun l => l.tail) h
      have h2 := ih (fun hm => hx (List.mem_cons_of_mem c hm))
        (fun hm => hx' (List.mem_cons_of_mem c' hm)) h1.2
      exact ⟨by rw [h1.1, h2.1], h2.2⟩

theorem string_data_inj {a b : String} (h : a.data = b.data) : a = b := by
  cases a; cases b; exact congrArg String.mk h

theorem bar_data : ("|" : String).data = ['|'] := rfl

theorem getDesktopKey_data (a d s : String) :
    (DesktopManager.getDesktopKey a d s).data = a.data ++ '|' :: (d.data ++ '|' :: s.data) := by
  simp [DesktopManager.getDesktopKey, String.data_append, bar_data]

theorem getDesktopKey_fst_inj {a d s a' d' s' : String} (ha : noBar a) (ha' : noBar a')
    (h : DesktopManager.getDesktopKey a d s = DesktopManager.getDesktopKey a' d' s') :
    a = a' := by
  have hd := congrArg String.data h
  rw [getDesktopKey_data, getDesktopKey_data] at hd
  exact string_data_inj (bar_append_inj ha ha' hd).1

theorem getDesktopKey_inj {a d s a' d' s' : String} (ha : noBar a) (hd : noBar d)
    (ha' : noBar a') (hd' : noBar d') :
    DesktopManager.getDesktopKey a d s = DesktopManager.getDesktopKey a' d' s' ↔
      a = a' ∧ d = d' ∧ s = s' := by
  constructor
  · intro h
    have hdata := congrArg String.data h
    rw [getDesktopKey_data, getDesktopKey_data] at hdata
    have h1 := bar_append_inj ha ha' hdata
    have h2 := bar_append_inj hd hd' h1.2
    exact ⟨string_data_inj h1.1, string_data_inj h2.1, string_data_inj h2.2⟩
  · rintro ⟨rfl, rfl, rfl⟩; rfl

theorem mapGet_eq_some_mem {m : List (String × Nat)} {k : String} {x : Nat}
    (h : mapGet m k = some x) : (k, x) ∈ m := by
  induction m with
  | nil => simp [mapGet] at h
  | cons e rest ih =>
    obtain ⟨k', v⟩ := e
    by_cases hk : k' = k
    · subst hk
      simp [mapGet] at h
      simp [h]
    · simp [mapGet, hk] at h
      exact List.mem_cons_of_mem _ (ih h)

theorem mapGet_eq_none_iff {m : List (String × Nat)} {k : String} :
    mapGet m k = none ↔ ∀ e ∈ m, e.1 ≠ k := by
  induction m with
  | nil => simp [mapGet]
  | cons e rest ih =>
    obtain ⟨k', v⟩ := e
    by_cases hk : k' = k
    · subst hk; simp [mapGet]
    · simp [mapGet, hk, ih]

theorem mem_mapGet {m : List (String × Nat)} {k : String} {x : Nat}
    (hnd : (m.map (fun e => e.1)).Nodup) (h : (k, x) ∈ m) : mapGet m k = some x := by
  induction m with
  | nil => simp at h
  | cons e rest ih =>
    obtain ⟨k', v⟩ := e
    have hnd' := List.nodup_cons.mp hnd
    rcases List.mem_cons.mp h with h1 | h1
    · injection h1 with hk hv
      subst hk; subst hv
      simp [mapGet]
    · have hkmem : k ∈ rest.map (fun e => e.1) := List.mem_map.mpr ⟨(k, x), h1, rfl⟩
      have hk : k' ≠ k := fun hkk => hnd'.1 (hkk ▸ hkmem)
      simp [mapGet, hk]
      exact ih hnd'.2 h1

theorem mapDelete_of_none {m : List (String × Nat)} {k : String}
    (h : mapGet m k = none) : mapDelete m k = m := by
  rw [mapDelete, List.filter_eq_self]
  intro e he
  simp
  exact mapGet_eq_none_iff.mp h e he

theorem mapSet_of_none {m : List (String × Nat)} {k : String} {v : Nat}
    (h : mapGet m k = none) : mapSet m k v = m ++ [(k, v)] := by
  induction m with
  | nil => simp [mapSet]
  | cons e rest ih =>
    obtain ⟨k', v'⟩ := e
    by_cases hk : k' = k
    · subst hk; simp [mapGet] at h
    · simp [mapGet, hk] at h
      simp [mapSet, hk, ih h]

theorem mapGet_mapSet_self {m : List (String × Nat)} {k : String} {v : Nat} :
    mapGet (mapSet m k v) k = some v := by
  induction m with
  | nil => simp [mapSet, mapGet]
  | cons e rest ih =>
    obtain ⟨k', v'⟩ := e
    by_cases hk : k' = k
    · subst hk; simp [mapSet, mapGet]
    · simp [mapSet, hk, mapGet, ih]

theorem mapGet_mapSet_ne {m : List (String × Nat)} {k k' : String} {v : Nat}
    (h : k ≠ k') : mapGet (mapSet m k v) k' = mapGet m k' := by
  induction m with
  | nil => simp [mapSet, mapGet, h]
  | cons e rest ih =>
    obtain ⟨k'', v'⟩ := e
    by_cases hk : k'' = k
    · subst hk; simp [mapSet, mapGet, h]
    · simp [mapSet, hk, mapGet, ih]

theorem getDesktop_cached {flt : String → Bool} {a d s : String} {st : DesktopManager}
    {x : Nat} (hf : flt d = true)
    (hg : mapGet st.desktops (DesktopManager.getDesktopKey a d s) = some x) :
    DesktopManager.getDesktop flt a d s st = (some x, st) := by
  simp [DesktopManager.getDesktop, hf, hg]

theorem getDesktop_some_get {flt : String → Bool} {a d s : String}
    {st st₁ : DesktopManager} {x : Nat}
    (h : DesktopManager.getDesktop flt a d s st = (some x, st₁)) :
    flt d = true ∧ mapGet st₁.desktops (DesktopManager.getDesktopKey a d s) = some x := by
  by_cases hf : flt d = false
  · simp [DesktopManager.getDesktop, hf] at h
  · have hf' : flt d = true := by
      cases hfd : flt d
      · exact absurd hfd hf
      · rfl
    refine ⟨hf', ?_⟩
    cases hg : mapGet st.desktops (DesktopManager.getDesktopKey a d s) with
    | some y =>
      simp [DesktopManager.getDesktop, hf', hg] at h
      rw [← h.2, hg, h.1]
    | none =>
      simp [DesktopManager.getDesktop, DesktopManager.addDesktop, hf', hg] at h
      rw [← h.2]
      simp [mapGet_mapSet_self, h.1]

theorem getDesktop_preserves_get {flt : String → Bool} {a d s k : String}
    {st : DesktopManager} {x : Nat} (h : mapGet st.desktops k = some x) :
    mapGet ((DesktopManager.getDesktop flt a d s st).2).desktops k = some x := by
  by_cases hf : flt d = false
  · simpa [DesktopManager.getDesktop, hf] using h
  · have hf' : flt d = true := by
      cases hfd : flt d
      · exact absurd hfd hf
      · rfl
    cases hg : mapGet st.desktops (DesktopManager.getDesktopKey a d s) with
    | some y => simpa [DesktopManager.getDesktop, hf', hg] using h
    | none =>
      have hne : DesktopManager.getDesktopKey a d s ≠ k := by
        intro he
        rw [he, h] at hg
        exact Option.noConfusion hg
      simpa [DesktopManager.getDesktop, DesktopManager.addDesktop, hf', hg,
        mapGet_mapSet_ne hne] using h

theorem runGetDesktops_preserves_get {flt : String → Bool} {k : String} {x : Nat}
    (calls : List (String × String × String)) {st : DesktopManager}
    (h : mapGet st.desktops k = some x) :
    mapGet ((DesktopManager.runGetDesktops flt calls st).desktops) k = some x := by
  induction calls generalizing st with
  | nil => simpa [DesktopManager.runGetDesktops] using h
  | cons c rest ih =>
    have h1 := @getDesktop_preserves_get flt c.1 c.2.1 c.2.2 k st x h
    simpa [DesktopManager.runGetDesktops] using ih h1

/-- Claim C3: equality of coordinate keys coincides with structural
equality of the component triple. This fails for arbitrary component
strings, because getDesktopKey concatenates with a vertical-bar separator:
a component containing the separator shifts the boundaries. The explicit
collision below makes two distinct triples produce the same key. -/
theorem claim_C3_key_collision :
    DesktopManager.getDesktopKey "x|y" "z" "w" = DesktopManager.getDesktopKey "x" "y|z" "w" ∧
      ¬(("x|y" : String) = "x" ∧ ("z" : String) = "y|z" ∧ ("w" : String) = "w") := by
  decide

/-- Claim C3 (amended): provided the activity components and the desktop-id
components are free of the separator character, two coordinate keys are
equal exactly when all three components compare equal. -/
theorem claim_C3_key_structural_equality (a d s a' d' s' : String)
    (ha : noBar a) (hd : noBar d) (ha' : noBar a') (hd' : noBar d') :
    DesktopManager.getDesktopKey a d s = DesktopManager.getDesktopKey a' d' s' ↔
      a = a' ∧ d = d' ∧ s = s' :=
  getDesktopKey_inj ha hd ha' hd'

theorem claim_C3_key_structural_equality_witness :
    noBar "act" ∧
      (DesktopManager.getDesktopKey "act" "d1" "s1" =
          DesktopManager.getDesktopKey "act" "d2" "s1" ↔
        ("act" : String) = "act" ∧ ("d1" : String) = "d2" ∧ ("s1" : String) = "s1") :=
  ⟨by decide,
    claim_C3_key_structural_equality "act" "d1" "s1" "act" "d2" "s1"
      (by decide) (by decide) (by decide) (by decide)⟩

/-- Claim C6: when the filter rejects the desktop, getDesktop returns
NotApplicable (none), creates nothing, and leaves the registry state
(hence the entries yielded by getAllDesktops) unchanged. -/
theorem claim_C6_filter_gating (flt : String → Bool) (a d s : String)
    (st : DesktopManager) (h : flt d = false) :
    DesktopManager.getDesktop flt a d s st = (none, st) ∧
      DesktopManager.getAllDesktops (DesktopManager.getDesktop flt a d s st).2 =
        DesktopManager.getAllDesktops st := by
  constructor
  · simp [DesktopManager.getDesktop, h]
  · simp [DesktopManager.getDesktop, h]

theorem claim_C6_filter_gating_witness :
    ((fun _ : String => false) "d") = false ∧
      (DesktopManager.getDesktop (fun _ => false) "a" "d" "s" stOne = (none, stOne) ∧
        DesktopManager.getAllDesktops
            (DesktopManager.getDesktop (fun _ => false) "a" "d" "s" stOne).2 =
          DesktopManager.getAllDesktops stOne) :=
  ⟨rfl, claim_C6_filter_gating (fun _ => false) "a" "d" "s" stOne rfl⟩

/-- Claim C4: once a resolve call for a coordinate returns an instance,
every later getDesktop call at that coordinate, after any further sequence
of getDesktop calls and with no intervening reconciliation or teardown,
returns the very same instance and leaves the state untouched (no new
entry is inserted), so at most one instance per coordinate exists. -/
theorem claim_C4_resolve_uniqueness (flt : String → Bool) (a d s : String)
    (st st₁ : DesktopManager) (x : Nat)
    (h : DesktopManager.getDesktop flt a d s st = (some x, st₁))
    (calls : List (String × String × String)) :
    DesktopManager.getDesktop flt a d s (DesktopManager.runGetDesktops flt calls st₁) =
      (some x, DesktopManager.runGetDesktops flt calls st₁) := by
  obtain ⟨hf, hg⟩ := getDesktop_some_get h
  exact getDesktop_cached hf (runGetDesktops_preserves_get calls hg)

theorem claim_C4_resolve_uniqueness_witness :
    DesktopManager.getDesktop fltAll "a" "d" "s"
        (DesktopManager.runGetDesktops fltAll [("b", "d", "s"), ("a", "d", "s")] stOne) =
      (some 0, DesktopManager.runGetDesktops fltAll [("b", "d", "s"), ("a", "d", "s")] stOne) :=
  claim_C4_resolve_uniqueness fltAll "a" "d" "s"
    (DesktopManager.init wsABC) stOne 0 (by decide) [("b", "d", "s"), ("a", "d", "s")]

theorem collectKeys_state (ks : List String) (st : DesktopManager) :
    (DesktopManager.collectKeys ks st).2 = st := by
  induction ks with
  | nil => rfl
  | cons k rest ih =>
    cases hg : mapGet st.desktops k with
    | some x => simp [DesktopManager.collectKeys, hg, ih]
    | none => simp [DesktopManager.collectKeys, hg, ih]

theorem collectKeys_fst_append (l1 l2 : List String) (st : DesktopManager) :
    (DesktopManager.collectKeys (l1 ++ l2) st).1 =
      (DesktopManager.collectKeys l1 st).1 ++ (DesktopManager.collectKeys l2 st).1 := by
  induction l1 with
  | nil => simp [DesktopManager.collectKeys]
  | cons k rest ih =>
    cases hg : mapGet st.desktops k with
    | some x => simp [DesktopManager.collectKeys, hg, ih]
    | none => simp [DesktopManager.collectKeys, hg, ih]

/-- Claim C9: the iteration operations (the multi-value getDesktops query
and getDesktopsOnCurrentDesktopAndActivity) leave the registry state
completely unchanged when run to completion: no entry is inserted, no
instance is constructed (nextId unchanged) and no destroy is invoked
(destroyed log unchanged); missing coordinates are skipped. -/
theorem claim_C9_non_creating_iteration :
    (∀ (activities kwinDesktops : List String) (st : DesktopManager),
      (DesktopManager.getDesktops activities kwinDesktops st).2 = st) ∧
      (∀ (ws : Workspace) (st : DesktopManager),
        (DesktopManager.getDesktopsOnCurrentDesktopAndActivity ws st).2 = st) := by
  constructor
  · intro activities kwinDesktops st
    simp only [DesktopManager.getDesktops]
    by_cases hkd : kwinDesktops.length > 0
    · rw [if_pos hkd]
      exact collectKeys_state _ st
    · rw [if_neg hkd]
      cases hma : (if activities.length > 0 then activities else st.kwinActivities) with
      | nil => exact collectKeys_state _ st
      | cons a0 rest => exact collectKeys_state _ st
  · intro ws st
    exact collectKeys_state _ st

theorem getDesktops_supplied (activities kwinDesktops : List String) (st : DesktopManager)
    (h1 : activities.length > 0) (h2 : kwinDesktops.length > 0) :
    DesktopManager.getDesktops activities kwinDesktops st =
      DesktopManager.collectKeys
        (activities.flatMap (fun a =>
          kwinDesktops.flatMap (fun d =>
            st.kwinScreens.map (fun s => DesktopManager.getDesktopKey a d s)))) st := by
  simp only [DesktopManager.getDesktops, if_pos h1, if_pos h2]

/-- Claim C10 fails as stated: with an empty kwinDesktops argument the
source defaults to this.kwinDesktops.keys(), a single-use iterator that
the first activity's inner loop exhausts, so a duplicated activities
argument does NOT yield the entry once per duplicated combination. At the
one-entry registry, getDesktops(["a","a"], []) yields the entry once, not
twice. -/
theorem claim_C10_iterator_exhausted :
    (DesktopManager.getDesktops ["a", "a"] [] stOne).1 = [0] ∧
      ¬(DesktopManager.getDesktops ["a", "a"] [] stOne).1 = [0, 0] := by
  decide

/-- Claim C10 (amended): when the desktops argument is a supplied
non-empty list, getDesktops iterates the supplied lists directly without
deduplication: duplicating the activities argument duplicates the whole
yielded block, and duplicating the desktops argument duplicates each
per-activity block, so the same instance is yielded once per duplicated
combination and the resulting sequence can repeat entries. When the
desktops argument is empty, the cached-desktops default is a single-use
iterator, exhausted after the first activity (see the counterexample). -/
theorem claim_C10_duplicates_yield_per_combination
    (activities kwinDesktops : List String) (a : String) (st : DesktopManager)
    (hact : activities ≠ []) (hkd : kwinDesktops ≠ []) :
    (DesktopManager.getDesktops (activities ++ activities) kwinDesktops st).1 =
      (DesktopManager.getDesktops activities kwinDesktops st).1 ++
        (DesktopManager.getDesktops activities kwinDesktops st).1 ∧
      (DesktopManager.getDesktops [a] (kwinDesktops ++ kwinDesktops) st).1 =
        (DesktopManager.getDesktops [a] kwinDesktops st).1 ++
          (DesktopManager.getDesktops [a] kwinDesktops st).1 := by
  have h1 : activities.length > 0 := List.length_pos.mpr hact
  have h2 : (activities ++ activities).length > 0 := by
    rw [List.length_append]; omega
  have h3 : kwinDesktops.length > 0 := List.length_pos.mpr hkd
  have h4 : (kwinDesktops ++ kwinDesktops).length > 0 := by
    rw [List.length_append]; omega
  have h5 : ([a] : List String).length > 0 := by simp
  constructor
  · rw [getDesktops_supplied _ _ _ h2 h3, getDesktops_supplied _ _ _ h1 h3,
      List.flatMap_append]
    exact collectKeys_fst_append _ _ st
  · rw [getDesktops_supplied _ _ _ h5 h4, getDesktops_supplied _ _ _ h5 h3]
    simp only [List.flatMap_cons, List.flatMap_nil, List.append_nil, List.flatMap_append]
    exact collectKeys_fst_append _ _ st

theorem claim_C10_duplicates_yield_per_combination_witness :
    ((DesktopManager.getDesktops (["a"] ++ ["a"]) ["d"] stOne).1 =
        (DesktopManager.getDesktops ["a"] ["d"] stOne).1 ++
          (DesktopManager.getDesktops ["a"] ["d"] stOne).1 ∧
      (DesktopManager.getDesktops ["a"] (["d"] ++ ["d"]) stOne).1 =
        (DesktopManager.getDesktops ["a"] ["d"] stOne).1 ++
          (DesktopManager.getDesktops ["a"] ["d"] stOne).1) :=
  claim_C10_duplicates_yield_per_combination ["a"] ["d"] "a" stOne (by decide) (by decide)

theorem destroy_destroyed_aux (l : List (String × Nat)) (st : DesktopManager) :
    l.foldl (fun acc e => { acc with destroyed := acc.destroyed ++ [e.2] }) st =
      { st with destroyed := st.destroyed ++ l.map (fun e => e.2) } := by
  induction l generalizing st with
  | nil => simp
  | cons e rest ih => simp [ih, List.append_assoc]

/-- Claim C2: this is the part of the teardown claim that is true of the
code: full teardown invokes destroy exactly once on every entry present.
The mapping, however, is not cleared (see the counterexample), so the
entries are still there afterwards. -/
theorem claim_C2_teardown_destroys_each_once (st : DesktopManager) (k : String) (x : Nat)
    (hmem : (k, x) ∈ st.desktops)
    (hvals : (st.desktops.map (fun e => e.2)).Nodup)
    (hnot : x ∉ st.destroyed) :
    List.count x (DesktopManager.destroy st).destroyed = 1 ∧
      (DesktopManager.destroy st).desktops = st.desktops := by
  have he : DesktopManager.destroy st =
      { st with destroyed := st.destroyed ++ st.desktops.map (fun e => e.2) } :=
    destroy_destroyed_aux st.desktops st
  rw [he]
  refine ⟨?_, rfl⟩
  have hz : List.count x st.destroyed = 0 := List.count_eq_zero.mpr hnot
  have hmemv : x ∈ st.desktops.map (fun e => e.2) := List.mem_map.mpr ⟨(k, x), hmem, rfl⟩
  have hle : List.count x (st.desktops.map (fun e => e.2)) ≤ 1 :=
    List.nodup_iff_count_le_one.mp hvals x
  have hpos : 0 < List.count x (st.desktops.map (fun e => e.2)) :=
    List.count_pos_iff.mpr hmemv
  simp [List.count_append, hz]
  omega

theorem claim_C2_teardown_destroys_each_once_witness :
    List.count 0 (DesktopManager.destroy stOne).destroyed = 1 ∧
      (DesktopManager.destroy stOne).desktops = stOne.desktops :=
  claim_C2_teardown_destroys_each_once stOne (DesktopManager.getDesktopKey "a" "d" "s") 0
    (by decide) (by decide) (by decide)

/-- Claim C2 fails as stated: after full teardown the registry does NOT
report zero entries, because destroy() only invokes the per-entry destroy
hooks and never clears the map. At the concrete one-entry registry, the
destroyed instance is still yielded by getAllDesktops. -/
theorem claim_C2_map_not_cleared :
    DesktopManager.getAllDesktops (DesktopManager.destroy stOne) ≠ [] := by
  decide

/-- Claim C5 fails as stated: lazy creation never consults the cached
snapshots or the host sets. Here the registry's cached activity snapshot
is empty and the host (whose state the registry last observed, wsNoAct)
has no activities either, yet resolving ("a", "d", "s") admits an entry
whose activity component "a" is outside every valid set at creation time. -/
theorem claim_C5_admits_unknown_components :
    "a" ∉ stDropA.kwinActivities ∧ "a" ∉ wsNoAct.activities ∧
      (DesktopManager.getDesktop fltAll "a" "d" "s" stDropA).1 = some 0 ∧
      mapGet ((DesktopManager.getDesktop fltAll "a" "d" "s" stDropA).2).desktops
        (DesktopManager.getDesktopKey "a" "d" "s") = some 0 := by
  decide

/-- Claim C5 (amended): admission into the registry is gated only by the
desktop filter. Whenever the filter accepts the desktop, resolve yields an
instance and an entry exists at the coordinate key afterwards, with no
membership requirement on any of the three components. -/
theorem claim_C5_admission_only_filter_gated (flt : String → Bool) (a d s : String)
    (st : DesktopManager) (h : flt d = true) :
    ∃ x, (DesktopManager.getDesktop flt a d s st).1 = some x ∧
      mapGet ((DesktopManager.getDesktop flt a d s st).2).desktops
        (DesktopManager.getDesktopKey a d s) = some x := by
  cases hg : mapGet st.desktops (DesktopManager.getDesktopKey a d s) with
  | some y =>
    refine ⟨y, ?_, ?_⟩ <;> simp [DesktopManager.getDesktop, h, hg]
  | none =>
    refine ⟨st.nextId, ?_, ?_⟩ <;>
      simp [DesktopManager.getDesktop, DesktopManager.addDesktop, h, hg, mapGet_mapSet_self]

theorem claim_C5_admission_only_filter_gated_witness :
    fltAll "d2" = true ∧
      (∃ x, (DesktopManager.getDesktop fltAll "a2" "d2" "s2" stOne).1 = some x ∧
        mapGet ((DesktopManager.getDesktop fltAll "a2" "d2" "s2" stOne).2).desktops
          (DesktopManager.getDesktopKey "a2" "d2" "s2") = some x) :=
  ⟨rfl, claim_C5_admission_only_filter_gated fltAll "a2" "d2" "s2" stOne rfl⟩

theorem foldl_if_mem (N : List String) (g : String → DesktopManager → DesktopManager)
    (l : List String) (st : DesktopManager) (h : ∀ a ∈ l, a ∈ N) :
    l.foldl (fun acc a => if a ∈ N then acc else g a acc) st = st := by
  induction l generalizing st with
  | nil => rfl
  | cons a rest ih =>
    have ha : a ∈ N := h a (List.mem_cons_self a rest)
    simp only [List.foldl_cons, if_pos ha]
    exact ih st (fun b hb => h b (List.mem_cons_of_mem a hb))

theorem set_kwinActivities_eta (st : DesktopManager) (v : List String)
    (h : st.kwinActivities = v) : { st with kwinActivities := v } = st := by
  cases st; simp_all

theorem set_kwinDesktops_eta (st : DesktopManager) (v : List String)
    (h : st.kwinDesktops = v) : { st with kwinDesktops := v } = st := by
  cases st; simp_all

theorem set_kwinScreens_eta (st : DesktopManager) (v : List String)
    (h : st.kwinScreens = v) : { st with kwinScreens := v } = st := by
  cases st; simp_all

theorem updateActivities_noop (ws : Workspace) (st : DesktopManager)
    (h : st.kwinActivities = dedup ws.activities) :
    DesktopManager.updateActivities ws st = st := by
  simp only [DesktopManager.updateActivities]
  rw [h, foldl_if_mem _ _ _ _ (fun a ha => ha)]
  exact set_kwinActivities_eta st _ h

theorem updateDesktops_noop (ws : Workspace) (st : DesktopManager)
    (h : st.kwinDesktops = dedup ws.desktops) :
    DesktopManager.updateDesktops ws st = st := by
  simp only [DesktopManager.updateDesktops]
  rw [h, foldl_if_mem _ _ _ _ (fun a ha => ha)]
  exact set_kwinDesktops_eta st _ h

theorem updateScreens_noop (ws : Workspace) (st : DesktopManager)
    (h : st.kwinScreens = dedup ws.screens) :
    DesktopManager.updateScreens ws st = st := by
  simp only [DesktopManager.updateScreens]
  rw [h, foldl_if_mem _ _ _ _ (fun a ha => ha)]
  exact set_kwinScreens_eta st _ h

/-- Claim C8: each reconciliation pass is idempotent. Running the same
pass a second time against an unchanged host set is a no-op: the full
state (entries, snapshots and the destroy-invocation log) is exactly the
state after the first run, so no further destroy is invoked. -/
theorem claim_C8_idempotent_reconciliation (ws : Workspace) (st : DesktopManager) :
    DesktopManager.updateActivities ws (DesktopManager.updateActivities ws st) =
        DesktopManager.updateActivities ws st ∧
      DesktopManager.updateDesktops ws (DesktopManager.updateDesktops ws st) =
        DesktopManager.updateDesktops ws st ∧
      DesktopManager.updateScreens ws (DesktopManager.updateScreens ws st) =
        DesktopManager.updateScreens ws st :=
  ⟨updateActivities_noop ws _ rfl, updateDesktops_noop ws _ rfl,
    updateScreens_noop ws _ rfl⟩

theorem destroyKey_kwinActivities (k : String) (st : DesktopManager) :
    (DesktopManager.destroyKey k st).kwinActivities = st.kwinActivities := by
  cases h : mapGet st.desktops k <;> simp [DesktopManager.destroyKey, h]

theorem destroyKey_kwinDesktops (k : String) (st : DesktopManager) :
    (DesktopManager.destroyKey k st).kwinDesktops = st.kwinDesktops := by
  cases h : mapGet st.desktops k <;> simp [DesktopManager.destroyKey, h]

theorem destroyKey_kwinScreens (k : String) (st : DesktopManager) :
    (DesktopManager.destroyKey k st).kwinScreens = st.kwinScreens := by
  cases h : mapGet st.desktops k <;> simp [DesktopManager.destroyKey, h]

theorem destroyKey_desktops (k : String) (st : DesktopManager) :
    (DesktopManager.destroyKey k st).desktops =
      st.desktops.filter (fun e => !decide (e.1 = k)) := by
  cases h : mapGet st.desktops k with
  | some x => simp [DesktopManager.destroyKey, h, mapDelete]
  | none =>
    simp [DesktopManager.destroyKey, h]
    exact (mapDelete_of_none h).symm

theorem mem_destroyKey_desktops {k : String} {st : DesktopManager} {e : String × Nat} :
    e ∈ (DesktopManager.destroyKey k st).desktops ↔ e ∈ st.desktops ∧ ¬e.1 = k := by
  rw [destroyKey_desktops]
  simp

theorem destroyKey_destroyed_mem {k : String} {st : DesktopManager} {x : Nat}
    (hnd : (st.desktops.map (fun e => e.1)).Nodup) :
    x ∈ (DesktopManager.destroyKey k st).destroyed ↔
      x ∈ st.destroyed ∨ (k, x) ∈ st.desktops := by
  cases h : mapGet st.desktops k with
  | some y =>
    have hy : (k, y) ∈ st.desktops := mapGet_eq_some_mem h
    simp only [DesktopManager.destroyKey, h, List.mem_append, List.mem_singleton]
    constructor
    · rintro (hx | rfl)
      · exact Or.inl hx
      · exact Or.inr hy
    · rintro (hx | hm)
      · exact Or.inl hx
      · have h2 := mem_mapGet hnd hm
        rw [h] at h2
        injection h2 with hxy
        exact Or.inr hxy.symm
  | none =>
    have hno : ∀ e ∈ st.desktops, e.1 ≠ k := mapGet_eq_none_iff.mp h
    simp only [DesktopManager.destroyKey, h]
    constructor
    · exact Or.inl
    · rintro (hx | hm)
      · exact hx
      · exact absurd rfl (hno (k, x) hm)

theorem destroyKeys_cons (k : String) (ks : List String) (st : DesktopManager) :
    DesktopManager.destroyKeys (k :: ks) st =
      DesktopManager.destroyKeys ks (DesktopManager.destroyKey k st) := rfl

theorem destroyKeys_append (l1 l2 : List String) (st : DesktopManager) :
    DesktopManager.destroyKeys (l1 ++ l2) st =
      DesktopManager.destroyKeys l2 (DesktopManager.destroyKeys l1 st) := by
  simp [DesktopManager.destroyKeys, List.foldl_append]

theorem destroyKeys_kwinActivities (ks : List String) (st : DesktopManager) :
    (DesktopManager.destroyKeys ks st).kwinActivities = st.kwinActivities := by
  induction ks generalizing st with
  | nil => rfl
  | cons k ks ih => rw [destroyKeys_cons, ih, destroyKey_kwinActivities]

theorem destroyKeys_kwinDesktops (ks : List String) (st : DesktopManager) :
    (DesktopManager.destroyKeys ks st).kwinDesktops = st.kwinDesktops := by
  induction ks generalizing st with
  | nil => rfl
  | cons k ks ih => rw [destroyKeys_cons, ih, destroyKey_kwinDesktops]

theorem destroyKeys_kwinScreens (ks : List String) (st : DesktopManager) :
    (DesktopManager.destroyKeys ks st).kwinScreens = st.kwinScreens := by
  induction ks generalizing st with
  | nil => rfl
  | cons k ks ih => rw [destroyKeys_cons, ih, destroyKey_kwinScreens]

theorem notMemConsBool (a k : String) (ks : List String) :
    (!decide (a ∈ k :: ks)) = (!decide (a ∈ ks) && !decide (a = k)) := by
  by_cases h1 : a = k <;> by_cases h2 : a ∈ ks <;> simp [h1, h2]

theorem destroyKeys_desktops (ks : List String) (st : DesktopManager) :
    (DesktopManager.destroyKeys ks st).desktops =
      st.desktops.filter (fun e => !decide (e.1 ∈ ks)) := by
  induction ks generalizing st with
  | nil => simp [DesktopManager.destroyKeys]
  | cons k ks ih =>
    rw [destroyKeys_cons, ih, destroyKey_desktops, List.filter_filter]
    simp only [notMemConsBool]

theorem destroyKeys_destroyed_mem {ks : List String} {st : DesktopManager} {x : Nat}
    (hnd : (st.desktops.map (fun e => e.1)).Nodup) :
    x ∈ (DesktopManager.destroyKeys ks st).destroyed ↔
      x ∈ st.destroyed ∨ ∃ k ∈ ks, (k, x) ∈ st.desktops := by
  induction ks generalizing st with
  | nil => simp [DesktopManager.destroyKeys]
  | cons k ks ih =>
    have hnd' : ((DesktopManager.destroyKey k st).desktops.map (fun e => e.1)).Nodup := by
      rw [destroyKey_desktops]
      exact hnd.sublist (List.Sublist.map _ (List.filter_sublist _))
    rw [destroyKeys_cons, ih hnd', destroyKey_destroyed_mem hnd]
    constructor
    · rintro ((hx | hm) | ⟨k', hk', hm⟩)
      · exact Or.inl hx
      · exact Or.inr ⟨k, List.mem_cons_self k ks, hm⟩
      · exact Or.inr ⟨k', List.mem_cons_of_mem k hk', (mem_destroyKey_desktops.mp hm).1⟩
    · rintro (hx | ⟨k', hk', hm⟩)
      · exact Or.inl (Or.inl hx)
      · rcases List.mem_cons.mp hk' with rfl | hk2
        · exact Or.inl (Or.inr hm)
        · by_cases hkk : k' = k
          · subst hkk
            exact Or.inl (Or.inr hm)
          · exact Or.inr ⟨k', hk2, mem_destroyKey_desktops.mpr ⟨hm, hkk⟩⟩

theorem mem_dedupAux (l : List String) :
    ∀ (seen : List String) (x : String), x ∈ dedupAux seen l ↔ x ∈ l ∧ x ∉ seen := by
  induction l with
  | nil => intro seen x; simp [dedupAux]
  | cons y ys ih =>
    intro seen x
    by_cases hy : y ∈ seen
    · simp only [dedupAux, if_pos hy, ih, List.mem_cons]
      constructor
      · rintro ⟨hx, hxs⟩
        exact ⟨Or.inr hx, hxs⟩
      · rintro ⟨hx, hxs⟩
        rcases hx with rfl | hx2
        · exact absurd hy hxs
        · exact ⟨hx2, hxs⟩
    · simp only [dedupAux, if_neg hy, List.mem_cons, ih]
      by_cases hxy : x = y
      · subst hxy
        simp [hy]
      · simp [hxy]

theorem mem_dedup {x : String} {l : List String} : x ∈ dedup l ↔ x ∈ l := by
  simp [dedup, mem_dedupAux]

theorem mem_removedBy {x : String} {c n : List String} :
    x ∈ DesktopManager.removedBy c n ↔ x ∈ c ∧ x ∉ n := by
  simp [DesktopManager.removedBy]

theorem mem_keysOfA {k : String} {ras ds ss : List String} :
    k ∈ DesktopManager.keysOfA ras ds ss ↔
      ∃ a ∈ ras, ∃ d ∈ ds, ∃ s ∈ ss, DesktopManager.getDesktopKey a d s = k := by
  simp [DesktopManager.keysOfA, DesktopManager.prodDS]

theorem mem_keysOfD {k : String} {rds as ss : List String} :
    k ∈ DesktopManager.keysOfD rds as ss ↔
      ∃ d ∈ rds, ∃ a ∈ as, ∃ s ∈ ss, DesktopManager.getDesktopKey a d s = k := by
  simp [DesktopManager.keysOfD, DesktopManager.prodAS]

theorem mem_keysOfS {k : String} {rss as ds : List String} :
    k ∈ DesktopManager.keysOfS rss as ds ↔
      ∃ s ∈ rss, ∃ a ∈ as, ∃ d ∈ ds, DesktopManager.getDesktopKey a d s = k := by
  simp [DesktopManager.keysOfS, DesktopManager.prodAD]

theorem getDesktopKey_mem_keysOfA {a d s : String} {ras ds ss : List String}
    (ha : noBar a) (hd : noBar d) (hras : ∀ x ∈ ras, noBar x) (hds : ∀ x ∈ ds, noBar x) :
    DesktopManager.getDesktopKey a d s ∈ DesktopManager.keysOfA ras ds ss ↔
      a ∈ ras ∧ d ∈ ds ∧ s ∈ ss := by
  rw [mem_keysOfA]
  constructor
  · rintro ⟨a', ha', d', hd', s', hs', he⟩
    obtain ⟨rfl, rfl, rfl⟩ := (getDesktopKey_inj (hras a' ha') (hds d' hd') ha hd).mp he
    exact ⟨ha', hd', hs'⟩
  · rintro ⟨h1, h2, h3⟩
    exact ⟨a, h1, d, h2, s, h3, rfl⟩

theorem getDesktopKey_mem_keysOfD {a d s : String} {rds as ss : List String}
    (ha : noBar a) (hd : noBar d) (has : ∀ x ∈ as, noBar x) (hrds : ∀ x ∈ rds, noBar x) :
    DesktopManager.getDesktopKey a d s ∈ DesktopManager.keysOfD rds as ss ↔
      d ∈ rds ∧ a ∈ as ∧ s ∈ ss := by
  rw [mem_keysOfD]
  constructor
  · rintro ⟨d', hd', a', ha', s', hs', he⟩
    obtain ⟨rfl, rfl, rfl⟩ := (getDesktopKey_inj (has a' ha') (hrds d' hd') ha hd).mp he
    exact ⟨hd', ha', hs'⟩
  · rintro ⟨h1, h2, h3⟩
    exact ⟨d, h1, a, h2, s, h3, rfl⟩

theorem getDesktopKey_mem_keysOfS {a d s : String} {rss as ds : List String}
    (ha : noBar a) (hd : noBar d) (has : ∀ x ∈ as, noBar x) (hds : ∀ x ∈ ds, noBar x) :
    DesktopManager.getDesktopKey a d s ∈ DesktopManager.keysOfS rss as ds ↔
      s ∈ rss ∧ a ∈ as ∧ d ∈ ds := by
  rw [mem_keysOfS]
  constructor
  · rintro ⟨s', hs', a', ha', d', hd', he⟩
    obtain ⟨rfl, rfl, rfl⟩ := (getDesktopKey_inj (has a' ha') (hds d' hd') ha hd).mp he
    exact ⟨hs', ha', hd'⟩
  · rintro ⟨h1, h2, h3⟩
    exact ⟨s, h1, a, h2, d, h3, rfl⟩

theorem foldl_destroy_screens (a d : String) (ss : List String) (st : DesktopManager) :
    ss.foldl (fun acc2 s => DesktopManager.destroyDesktop a d s acc2) st =
      DesktopManager.destroyKeys (ss.map (fun s => DesktopManager.getDesktopKey a d s)) st := by
  induction ss generalizing st with
  | nil => rfl
  | cons s rest ih => exact ih (DesktopManager.destroyDesktop a d s st)

theorem foldl_destroy_desktops (a s : String) (ds : List String) (st : DesktopManager) :
    ds.foldl (fun acc2 d => DesktopManager.destroyDesktop a d s acc2) st =
      DesktopManager.destroyKeys (ds.map (fun d => DesktopManager.getDesktopKey a d s)) st := by
  induction ds generalizing st with
  | nil => rfl
  | cons d rest ih => exact ih (DesktopManager.destroyDesktop a d s st)

theorem prodDS_cons (a d : String) (rest ss : List String) :
    DesktopManager.prodDS a (d :: rest) ss =
      ss.map (fun s => DesktopManager.getDesktopKey a d s) ++ DesktopManager.prodDS a rest ss := by
  simp [DesktopManager.prodDS]

theorem prodAS_cons (d a : String) (rest ss : List String) :
    DesktopManager.prodAS d (a :: rest) ss =
      ss.map (fun s => DesktopManager.getDesktopKey a d s) ++ DesktopManager.prodAS d rest ss := by
  simp [DesktopManager.prodAS]

theorem prodAD_cons (s a : String) (rest ds : List String) :
    DesktopManager.prodAD s (a :: rest) ds =
      ds.map (fun d => DesktopManager.getDesktopKey a d s) ++ DesktopManager.prodAD s rest ds := by
  simp [DesktopManager.prodAD]

theorem removeActivity_fold (a : String) (ss : List String) (ds : List String) :
    ∀ (acc : DesktopManager), acc.kwinScreens = ss →
      ds.foldl (fun acc1 d => acc1.kwinScreens.foldl
        (fun acc2 s => DesktopManager.destroyDesktop a d s acc2) acc1) acc =
        DesktopManager.destroyKeys (DesktopManager.prodDS a ds ss) acc := by
  induction ds with
  | nil => intro acc h; rfl
  | cons d rest ih =>
    intro acc h
    rw [List.foldl_cons, h, foldl_destroy_screens]
    rw [ih _ (by rw [destroyKeys_kwinScreens, h])]
    rw [prodDS_cons, destroyKeys_append]

theorem removeActivity_eq (a : String) (st : DesktopManager) :
    DesktopManager.removeActivity a st =
      DesktopManager.destroyKeys (DesktopManager.prodDS a st.kwinDesktops st.kwinScreens) st :=
  removeActivity_fold a st.kwinScreens st.kwinDesktops st rfl

theorem removeKwinDesktop_fold (d : String) (ss : List String) (as : List String) :
    ∀ (acc : DesktopManager), acc.kwinScreens = ss →
      as.foldl (fun acc1 a => acc1.kwinScreens.foldl
        (fun acc2 s => DesktopManager.destroyDesktop a d s acc2) acc1) acc =
        DesktopManager.destroyKeys (DesktopManager.prodAS d as ss) acc := by
  induction as with
  | nil => intro acc h; rfl
  | cons a rest ih =>
    intro acc h
    rw [List.foldl_cons, h, foldl_destroy_screens]
    rw [ih _ (by rw [destroyKeys_kwinScreens, h])]
    rw [prodAS_cons, destroyKeys_append]

theorem removeKwinDesktop_eq (d : String) (st : DesktopManager) :
    DesktopManager.removeKwinDesktop d st =
      DesktopManager.destroyKeys (DesktopManager.prodAS d st.kwinActivities st.kwinScreens) st :=
  removeKwinDesktop_fold d st.kwinScreens st.kwinActivities st rfl

theorem removeScreen_fold (s : String) (ds : List String) (as : List String) :
    ∀ (acc : DesktopManager), acc.kwinDesktops = ds →
      as.foldl (fun acc1 a => acc1.kwinDesktops.foldl
        (fun acc2 d => DesktopManager.destroyDesktop a d s acc2) acc1) acc =
        DesktopManager.destroyKeys (DesktopManager.prodAD s as ds) acc := by
  induction as with
  | nil => intro acc h; rfl
  | cons a rest ih =>
    intro acc h
    rw [List.foldl_cons, h, foldl_destroy_desktops]
    rw [ih _ (by rw [destroyKeys_kwinDesktops, h])]
    rw [prodAD_cons, destroyKeys_append]

theorem removeScreen_eq (s : String) (st : DesktopManager) :
    DesktopManager.removeScreen s st =
      DesktopManager.destroyKeys (DesktopManager.prodAD s st.kwinActivities st.kwinDesktops) st :=
  removeScreen_fold s st.kwinDesktops st.kwinActivities st rfl

theorem updA_fold (N : List String) (l : List String) :
    ∀ (acc : DesktopManager) (ds ss : List String),
      acc.kwinDesktops = ds → acc.kwinScreens = ss →
      l.foldl (fun acc1 a => if a ∈ N then acc1 else DesktopManager.removeActivity a acc1) acc =
        DesktopManager.destroyKeys
          (DesktopManager.keysOfA (DesktopManager.removedBy l N) ds ss) acc := by
  induction l with
  | nil => intro acc ds ss h1 h2; rfl
  | cons a rest ih =>
    intro acc ds ss h1 h2
    by_cases ha : a ∈ N
    · rw [List.foldl_cons, if_pos ha, ih acc ds ss h1 h2]
      congr 1
      simp [DesktopManager.removedBy, ha]
    · rw [List.foldl_cons, if_neg ha, removeActivity_eq, h1, h2]
      rw [ih _ ds ss (by rw [destroyKeys_kwinDesktops, h1]) (by rw [destroyKeys_kwinScreens, h2])]
      rw [← destroyKeys_append]
      congr 1
      simp [DesktopManager.removedBy, DesktopManager.keysOfA, ha]

theorem updateActivities_eq (ws : Workspace) (st : DesktopManager) :
    DesktopManager.updateActivities ws st =
      { DesktopManager.destroyKeys (DesktopManager.removedActivityKeys ws st) st with
        kwinActivities := dedup ws.activities } := by
  simp only [DesktopManager.updateActivities]
  rw [updA_fold (dedup ws.activities) st.kwinActivities st st.kwinDesktops st.kwinScreens rfl rfl]
  rfl

theorem updD_fold (N : List String) (l : List String) :
    ∀ (acc : DesktopManager) (as ss : List String),
      acc.kwinActivities = as → acc.kwinScreens = ss →
      l.foldl (fun acc1 d => if d ∈ N then acc1 else DesktopManager.removeKwinDesktop d acc1) acc =
        DesktopManager.destroyKeys
          (DesktopManager.keysOfD (DesktopManager.removedBy l N) as ss) acc := by
  induction l with
  | nil => intro acc as ss h1 h2; rfl
  | cons d rest ih =>
    intro acc as ss h1 h2
    by_cases hd : d ∈ N
    · rw [List.foldl_cons, if_pos hd, ih acc as ss h1 h2]
      congr 1
      simp [DesktopManager.removedBy, hd]
    · rw [List.foldl_cons, if_neg hd, removeKwinDesktop_eq, h1, h2]
      rw [ih _ as ss (by rw [destroyKeys_kwinActivities, h1]) (by rw [destroyKeys_kwinScreens, h2])]
      rw [← destroyKeys_append]
      congr 1
      simp [DesktopManager.removedBy, DesktopManager.keysOfD, hd]

theorem updateDesktops_eq (ws : Workspace) (st : DesktopManager) :
    DesktopManager.updateDesktops ws st =
      { DesktopManager.destroyKeys (DesktopManager.removedDesktopKeys ws st) st with
        kwinDesktops := dedup ws.desktops } := by
  simp only [DesktopManager.updateDesktops]
  rw [updD_fold (dedup ws.desktops) st.kwinDesktops st st.kwinActivities st.kwinScreens rfl rfl]
  rfl

theorem updS_fold (N : List String) (l : List String) :
    ∀ (acc : DesktopManager) (as ds : List String),
      acc.kwinActivities = as → acc.kwinDesktops = ds →
      l.foldl (fun acc1 s => if s ∈ N then acc1 else DesktopManager.removeScreen s acc1) acc =
        DesktopManager.destroyKeys
          (DesktopManager.keysOfS (DesktopManager.removedBy l N) as ds) acc := by
  induction l with
  | nil => intro acc as ds h1 h2; rfl
  | cons s rest ih =>
    intro acc as ds h1 h2
    by_cases hs : s ∈ N
    · rw [List.foldl_cons, if_pos hs, ih acc as ds h1 h2]
      congr 1
      simp [DesktopManager.removedBy, hs]
    · rw [List.foldl_cons, if_neg hs, removeScreen_eq, h1, h2]
      rw [ih _ as ds (by rw [destroyKeys_kwinActivities, h1]) (by rw [destroyKeys_kwinDesktops, h2])]
      rw [← destroyKeys_append]
      congr 1
      simp [DesktopManager.removedBy, DesktopManager.keysOfS, hs]

theorem updateScreens_eq (ws : Workspace) (st : DesktopManager) :
    DesktopManager.updateScreens ws st =
      { DesktopManager.destroyKeys (DesktopManager.removedScreenKeys ws st) st with
        kwinScreens := dedup ws.screens } := by
  simp only [DesktopManager.updateScreens]
  rw [updS_fold (dedup ws.screens) st.kwinScreens st st.kwinActivities st.kwinDesktops rfl rfl]
  rfl

theorem updateActivities_desktops (ws : Workspace) (st : DesktopManager) :
    (DesktopManager.updateActivities ws st).desktops =
      st.desktops.filter
        (fun e => !decide (e.1 ∈ DesktopManager.removedActivityKeys ws st)) := by
  rw [updateActivities_eq]
  exact destroyKeys_desktops _ _

theorem updateActivities_kwinActivities (ws : Workspace) (st : DesktopManager) :
    (DesktopManager.updateActivities ws st).kwinActivities = dedup ws.activities := by
  rw [updateActivities_eq]

theorem updateActivities_kwinDesktops (ws : Workspace) (st : DesktopManager) :
    (DesktopManager.updateActivities ws st).kwinDesktops = st.kwinDesktops := by
  rw [updateActivities_eq]
  exact destroyKeys_kwinDesktops _ _

theorem updateActivities_kwinScreens (ws : Workspace) (st : DesktopManager) :
    (DesktopManager.updateActivities ws st).kwinScreens = st.kwinScreens := by
  rw [updateActivities_eq]
  exact destroyKeys_kwinScreens _ _

theorem updateActivities_destroyed_mem {ws : Workspace} {st : DesktopManager} {x : Nat}
    (hnd : (st.desktops.map (fun e => e.1)).Nodup) :
    x ∈ (DesktopManager.updateActivities ws st).destroyed ↔
      x ∈ st.destroyed ∨
        ∃ k ∈ DesktopManager.removedActivityKeys ws st, (k, x) ∈ st.desktops := by
  rw [updateActivities_eq]
  exact destroyKeys_destroyed_mem hnd

theorem updateDesktops_desktops (ws : Workspace) (st : DesktopManager) :
    (DesktopManager.updateDesktops ws st).desktops =
      st.desktops.filter
        (fun e => !decide (e.1 ∈ DesktopManager.removedDesktopKeys ws st)) := by
  rw [updateDesktops_eq]
  exact destroyKeys_desktops _ _

theorem updateDesktops_kwinActivities (ws : Workspace) (st : DesktopManager) :
    (DesktopManager.updateDesktops ws st).kwinActivities = st.kwinActivities := by
  rw [updateDesktops_eq]
  exact destroyKeys_kwinActivities _ _

theorem updateDesktops_kwinDesktops (ws : Workspace) (st : DesktopManager) :
    (DesktopManager.updateDesktops ws st).kwinDesktops = dedup ws.desktops := by
  rw [updateDesktops_eq]

theorem updateDesktops_kwinScreens (ws : Workspace) (st : DesktopManager) :
    (DesktopManager.updateDesktops ws st).kwinScreens = st.kwinScreens := by
  rw [updateDesktops_eq]
  exact destroyKeys_kwinScreens _ _

theorem updateDesktops_destroyed_mem {ws : Workspace} {st : DesktopManager} {x : Nat}
    (hnd : (st.desktops.map (fun e => e.1)).Nodup) :
    x ∈ (DesktopManager.updateDesktops ws st).destroyed ↔
      x ∈ st.destroyed ∨
        ∃ k ∈ DesktopManager.removedDesktopKeys ws st, (k, x) ∈ st.desktops := by
  rw [updateDesktops_eq]
  exact destroyKeys_destroyed_mem hnd

theorem updateScreens_desktops (ws : Workspace) (st : DesktopManager) :
    (DesktopManager.updateScreens ws st).desktops =
      st.desktops.filter
        (fun e => !decide (e.1 ∈ DesktopManager.removedScreenKeys ws st)) := by
  rw [updateScreens_eq]
  exact destroyKeys_desktops _ _

theorem updateScreens_kwinActivities (ws : Workspace) (st : DesktopManager) :
    (DesktopManager.updateScreens ws st).kwinActivities = st.kwinActivities := by
  rw [updateScreens_eq]
  exact destroyKeys_kwinActivities _ _

theorem updateScreens_kwinDesktops (ws : Workspace) (st : DesktopManager) :
    (DesktopManager.updateScreens ws st).kwinDesktops = st.kwinDesktops := by
  rw [updateScreens_eq]
  exact destroyKeys_kwinDesktops _ _

theorem updateScreens_kwinScreens (ws : Workspace) (st : DesktopManager) :
    (DesktopManager.updateScreens ws st).kwinScreens = dedup ws.screens := by
  rw [updateScreens_eq]

theorem updateScreens_destroyed_mem {ws : Workspace} {st : DesktopManager} {x : Nat}
    (hnd : (st.desktops.map (fun e => e.1)).Nodup) :
    x ∈ (DesktopManager.updateScreens ws st).destroyed ↔
      x ∈ st.destroyed ∨
        ∃ k ∈ DesktopManager.removedScreenKeys ws st, (k, x) ∈ st.desktops := by
  rw [updateScreens_eq]
  exact destroyKeys_destroyed_mem hnd

theorem updateActivities_removes (ws : Workspace) (st : DesktopManager)
    (hwf : DMwf st) (v : String) (hv : v ∈ st.kwinActivities) (hvh : v ∉ ws.activities)
    (d s : String) :
    mapGet (DesktopManager.updateActivities ws st).desktops
      (DesktopManager.getDesktopKey v d s) = none := by
  cases hm : mapGet (DesktopManager.updateActivities ws st).desktops
      (DesktopManager.getDesktopKey v d s) with
  | none => rfl
  | some x =>
    exfalso
    have hmem := mapGet_eq_some_mem hm
    rw [updateActivities_desktops] at hmem
    have hmem2 := List.mem_filter.mp hmem
    obtain ⟨a₀, ha₀, d₀, hd₀, s₀, hs₀, heq⟩ := hwf.1 _ hmem2.1
    have hva : v = a₀ := getDesktopKey_fst_inj (hwf.2.1 v hv) (hwf.2.1 a₀ ha₀) heq
    subst hva
    have hkin : DesktopManager.getDesktopKey v d s ∈
        DesktopManager.removedActivityKeys ws st := by
      have heq' : DesktopManager.getDesktopKey v d s =
          DesktopManager.getDesktopKey v d₀ s₀ := heq
      rw [heq']
      exact mem_keysOfA.mpr
        ⟨v, mem_removedBy.mpr ⟨hv, fun hc => hvh (mem_dedup.mp hc)⟩, d₀, hd₀, s₀, hs₀, rfl⟩
    have hfil := hmem2.2
    simp at hfil
    exact hfil hkin

theorem updateActivities_frame (ws : Workspace) (st : DesktopManager)
    (hwf : DMwf st) (hws : wsNoBars ws) (a d s : String) (x : Nat)
    (hmem : (DesktopManager.getDesktopKey a d s, x) ∈ st.desktops)
    (hah : a ∈ ws.activities) :
    (DesktopManager.getDesktopKey a d s, x) ∈
        (DesktopManager.updateActivities ws st).desktops ∧
      (x ∈ (DesktopManager.updateActivities ws st).destroyed ↔ x ∈ st.destroyed) := by
  have ha : noBar a := hws.1 a hah
  have hnotin : DesktopManager.getDesktopKey a d s ∉
      DesktopManager.removedActivityKeys ws st := by
    intro hin
    obtain ⟨a', ha', d', hd', s', hs', heq⟩ := mem_keysOfA.mp hin
    have hra := mem_removedBy.mp ha'
    have haa : a' = a := getDesktopKey_fst_inj (hwf.2.1 a' hra.1) ha heq
    subst haa
    exact hra.2 (mem_dedup.mpr hah)
  constructor
  · rw [updateActivities_desktops]
    exact List.mem_filter.mpr ⟨hmem, by simp [hnotin]⟩
  · rw [updateActivities_destroyed_mem hwf.2.2.2.1]
    constructor
    · rintro (hx | ⟨k, hk, hkm⟩)
      · exact hx
      · exfalso
        have hpair : (k, x) = (DesktopManager.getDesktopKey a d s, x) :=
          List.inj_on_of_nodup_map hwf.2.2.2.2 hkm hmem rfl
        have hk2 : k = DesktopManager.getDesktopKey a d s := congrArg Prod.fst hpair
        rw [hk2] at hk
        exact hnotin hk
    · exact Or.inl

theorem updateDesktops_removes (ws : Workspace) (st : DesktopManager)
    (hwf : DMwf st) (v : String) (hv : v ∈ st.kwinDesktops) (hvh : v ∉ ws.desktops)
    (a s : String) (ha : noBar a) :
    mapGet (DesktopManager.updateDesktops ws st).desktops
      (DesktopManager.getDesktopKey a v s) = none := by
  cases hm : mapGet (DesktopManager.updateDesktops ws st).desktops
      (DesktopManager.getDesktopKey a v s) with
  | none => rfl
  | some x =>
    exfalso
    have hmem := mapGet_eq_some_mem hm
    rw [updateDesktops_desktops] at hmem
    have hmem2 := List.mem_filter.mp hmem
    obtain ⟨a₀, ha₀, d₀, hd₀, s₀, hs₀, heq⟩ := hwf.1 _ hmem2.1
    have heq' : DesktopManager.getDesktopKey a v s =
        DesktopManager.getDesktopKey a₀ d₀ s₀ := heq
    obtain ⟨rfl, rfl, rfl⟩ :=
      (getDesktopKey_inj ha (hwf.2.2.1 v hv) (hwf.2.1 a₀ ha₀) (hwf.2.2.1 d₀ hd₀)).mp heq'
    have hkin : DesktopManager.getDesktopKey a v s ∈
        DesktopManager.removedDesktopKeys ws st :=
      mem_keysOfD.mpr
        ⟨v, mem_removedBy.mpr ⟨hv, fun hc => hvh (mem_dedup.mp hc)⟩, a, ha₀, s, hs₀, rfl⟩
    have hfil := hmem2.2
    simp at hfil
    exact hfil hkin

theorem updateDesktops_frame (ws : Workspace) (st : DesktopManager)
    (hwf : DMwf st) (hws : wsNoBars ws) (a d s : String) (x : Nat)
    (hmem : (DesktopManager.getDesktopKey a d s, x) ∈ st.desktops)
    (ha : noBar a) (hdh : d ∈ ws.desktops) :
    (DesktopManager.getDesktopKey a d s, x) ∈
        (DesktopManager.updateDesktops ws st).desktops ∧
      (x ∈ (DesktopManager.updateDesktops ws st).destroyed ↔ x ∈ st.destroyed) := by
  have hd : noBar d := hws.2 d hdh
  have hnotin : DesktopManager.getDesktopKey a d s ∉
      DesktopManager.removedDesktopKeys ws st := by
    intro hin
    obtain ⟨d', hd', a', ha', s', hs', heq⟩ := mem_keysOfD.mp hin
    have hrd := mem_removedBy.mp hd'
    obtain ⟨rfl, rfl, rfl⟩ :=
      (getDesktopKey_inj (hwf.2.1 a' ha') (hwf.2.2.1 d' hrd.1) ha hd).mp heq
    exact hrd.2 (mem_dedup.mpr hdh)
  constructor
  · rw [updateDesktops_desktops]
    exact List.mem_filter.mpr ⟨hmem, by simp [hnotin]⟩
  · rw [updateDesktops_destroyed_mem hwf.2.2.2.1]
    constructor
    · rintro (hx | ⟨k, hk, hkm⟩)
      · exact hx
      · exfalso
        have hpair : (k, x) = (DesktopManager.getDesktopKey a d s, x) :=
          List.inj_on_of_nodup_map hwf.2.2.2.2 hkm hmem rfl
        have hk2 : k = DesktopManager.getDesktopKey a d s := congrArg Prod.fst hpair
        rw [hk2] at hk
        exact hnotin hk
    · exact Or.inl

theorem updateScreens_removes (ws : Workspace) (st : DesktopManager)
    (hwf : DMwf st) (v : String) (hv : v ∈ st.kwinScreens) (hvh : v ∉ ws.screens)
    (a d : String) (ha : noBar a) (hd : noBar d) :
    mapGet (DesktopManager.updateScreens ws st).desktops
      (DesktopManager.getDesktopKey a d v) = none := by
  cases hm : mapGet (DesktopManager.updateScreens ws st).desktops
      (DesktopManager.getDesktopKey a d v) with
  | none => rfl
  | some x =>
    exfalso
    have hmem := mapGet_eq_some_mem hm
    rw [updateScreens_desktops] at hmem
    have hmem2 := List.mem_filter.mp hmem
    obtain ⟨a₀, ha₀, d₀, hd₀, s₀, hs₀, heq⟩ := hwf.1 _ hmem2.1
    have heq' : DesktopManager.getDesktopKey a d v =
        DesktopManager.getDesktopKey a₀ d₀ s₀ := heq
    obtain ⟨rfl, rfl, rfl⟩ :=
      (getDesktopKey_inj ha hd (hwf.2.1 a₀ ha₀) (hwf.2.2.1 d₀ hd₀)).mp heq'
    have hkin : DesktopManager.getDesktopKey a d v ∈
        DesktopManager.removedScreenKeys ws st :=
      mem_keysOfS.mpr
        ⟨v, mem_removedBy.mpr ⟨hv, fun hc => hvh (mem_dedup.mp hc)⟩, a, ha₀, d, hd₀, rfl⟩
    have hfil := hmem2.2
    simp at hfil
    exact hfil hkin

theorem updateScreens_frame (ws : Workspace) (st : DesktopManager)
    (hwf : DMwf st) (a d s : String) (x : Nat)
    (hmem : (DesktopManager.getDesktopKey a d s, x) ∈ st.desktops)
    (ha : noBar a) (hd : noBar d) (hsh : s ∈ ws.screens) :
    (DesktopManager.getDesktopKey a d s, x) ∈
        (DesktopManager.updateScreens ws st).desktops ∧
      (x ∈ (DesktopManager.updateScreens ws st).destroyed ↔ x ∈ st.destroyed) := by
  have hnotin : DesktopManager.getDesktopKey a d s ∉
      DesktopManager.removedScreenKeys ws st := by
    intro hin
    obtain ⟨s', hs', a', ha', d', hd', heq⟩ := mem_keysOfS.mp hin
    have hrs := mem_removedBy.mp hs'
    obtain ⟨rfl, rfl, rfl⟩ :=
      (getDesktopKey_inj (hwf.2.1 a' ha') (hwf.2.2.1 d' hd') ha hd).mp heq
    exact hrs.2 (mem_dedup.mpr hsh)
  constructor
  · rw [updateScreens_desktops]
    exact List.mem_filter.mpr ⟨hmem, by simp [hnotin]⟩
  · rw [updateScreens_destroyed_mem hwf.2.2.2.1]
    constructor
    · rintro (hx | ⟨k, hk, hkm⟩)
      · exact hx
      · exfalso
        have hpair : (k, x) = (DesktopManager.getDesktopKey a d s, x) :=
          List.inj_on_of_nodup_map hwf.2.2.2.2 hkm hmem rfl
        have hk2 : k = DesktopManager.getDesktopKey a d s := congrArg Prod.fst hpair
        rw [hk2] at hk
        exact hnotin hk
    · exact Or.inl

/-- Claim C1 fails as stated: an entry can survive a reconciliation pass
removing its own dimension value. Concretely, the host gains the virtual
desktop "d" after the registry cached an empty desktop snapshot, the
coordinate ("a", "d", "s") is resolved while "d" is host-valid, and then
"d" is removed from the host set again: updateDesktops diffs against the
stale empty snapshot, destroys nothing, and the entry keyed by the removed
value "d" persists. -/
theorem claim_C1_stale_entry_survives :
    ("d" ∈ wsABC.desktops) ∧ ("d" ∉ wsPre.desktops) ∧
      mapGet (DesktopManager.updateDesktops wsPre stStale).desktops
        (DesktopManager.getDesktopKey "a" "d" "s") = some 0 := by
  decide

/-- Claim C1 (amended): for well-formed registry states (every entry's
components are members of the cached snapshots, separator-free ids, unique
keys and instances), a reconciliation pass for a dimension removes every
entry whose component for that dimension is a cached value absent from
the host set, and every entry all of whose components are still host-valid
in that dimension is untouched: same instance present, and no destroy was
invoked on it. Stated for all three passes. -/
theorem claim_C1_reconciliation_correct (ws : Workspace) (st : DesktopManager)
    (hwf : DMwf st) (hws : wsNoBars ws) :
    ((∀ v d s, v ∈ st.kwinActivities → v ∉ ws.activities →
        mapGet (DesktopManager.updateActivities ws st).desktops
          (DesktopManager.getDesktopKey v d s) = none) ∧
      (∀ a d s x, (DesktopManager.getDesktopKey a d s, x) ∈ st.desktops →
        a ∈ ws.activities →
        (DesktopManager.getDesktopKey a d s, x) ∈
            (DesktopManager.updateActivities ws st).desktops ∧
          (x ∈ (DesktopManager.updateActivities ws st).destroyed ↔ x ∈ st.destroyed))) ∧
      ((∀ v a s, noBar a → v ∈ st.kwinDesktops → v ∉ ws.desktops →
          mapGet (DesktopManager.updateDesktops ws st).desktops
            (DesktopManager.getDesktopKey a v s) = none) ∧
        (∀ a d s x, (DesktopManager.getDesktopKey a d s, x) ∈ st.desktops →
          noBar a → d ∈ ws.desktops →
          (DesktopManager.getDesktopKey a d s, x) ∈
              (DesktopManager.updateDesktops ws st).desktops ∧
            (x ∈ (DesktopManager.updateDesktops ws st).destroyed ↔ x ∈ st.destroyed))) ∧
      ((∀ v a d, noBar a → noBar d → v ∈ st.kwinScreens → v ∉ ws.screens →
          mapGet (DesktopManager.updateScreens ws st).desktops
            (DesktopManager.getDesktopKey a d v) = none) ∧
        (∀ a d s x, (DesktopManager.getDesktopKey a d s, x) ∈ st.desktops →
          noBar a → noBar d → s ∈ ws.screens →
          (DesktopManager.getDesktopKey a d s, x) ∈
              (DesktopManager.updateScreens ws st).desktops ∧
            (x ∈ (DesktopManager.updateScreens ws st).destroyed ↔ x ∈ st.destroyed))) := by
  refine ⟨⟨?_, ?_⟩, ⟨?_, ?_⟩, ⟨?_, ?_⟩⟩
  · intro v d s hv hvh
    exact updateActivities_removes ws st hwf v hv hvh d s
  · intro a d s x hmem hah
    exact updateActivities_frame ws st hwf hws a d s x hmem hah
  · intro v a s ha hv hvh
    exact updateDesktops_removes ws st hwf v hv hvh a s ha
  · intro a d s x hmem ha hdh
    exact updateDesktops_frame ws st hwf hws a d s x hmem ha hdh
  · intro v a d ha hd hv hvh
    exact updateScreens_removes ws st hwf v hv hvh a d ha hd
  · intro a d s x hmem ha hd hsh
    exact updateScreens_frame ws st hwf a d s x hmem ha hd hsh

theorem claim_C1_reconciliation_correct_witness :
    mapGet (DesktopManager.updateActivities wsNoAct stOne).desktops
        (DesktopManager.getDesktopKey "a" "d" "s") = none :=
  (claim_C1_reconciliation_correct wsNoAct stOne (by decide) (by decide)).1.1
    "a" "d" "s" (by decide) (by decide)

theorem dedup_noBars {l : List String} (h : ∀ x ∈ l, noBar x) :
    ∀ x ∈ dedup l, noBar x :=
  fun x hx => h x (mem_dedup.mp hx)

theorem bool_eq_of_iff {b1 b2 : Bool} (h : b1 = true ↔ b2 = true) : b1 = b2 := by
  cases b1 <;> cases b2 <;> simp_all

theorem mem_removedActivityKeys {ws : Workspace} {t : DesktopManager} {a d s : String}
    (ha : noBar a) (hd : noBar d)
    (htA : ∀ x ∈ t.kwinActivities, noBar x) (htD : ∀ x ∈ t.kwinDesktops, noBar x) :
    DesktopManager.getDesktopKey a d s ∈ DesktopManager.removedActivityKeys ws t ↔
      ((a ∈ t.kwinActivities ∧ a ∉ ws.activities) ∧
        d ∈ t.kwinDesktops ∧ s ∈ t.kwinScreens) := by
  unfold DesktopManager.removedActivityKeys
  rw [getDesktopKey_mem_keysOfA ha hd (fun x hx => htA x (mem_removedBy.mp hx).1) htD]
  rw [mem_removedBy, mem_dedup]

theorem mem_removedDesktopKeys {ws : Workspace} {t : DesktopManager} {a d s : String}
    (ha : noBar a) (hd : noBar d)
    (htA : ∀ x ∈ t.kwinActivities, noBar x) (htD : ∀ x ∈ t.kwinDesktops, noBar x) :
    DesktopManager.getDesktopKey a d s ∈ DesktopManager.removedDesktopKeys ws t ↔
      ((d ∈ t.kwinDesktops ∧ d ∉ ws.desktops) ∧
        a ∈ t.kwinActivities ∧ s ∈ t.kwinScreens) := by
  unfold DesktopManager.removedDesktopKeys
  rw [getDesktopKey_mem_keysOfD ha hd htA (fun x hx => htD x (mem_removedBy.mp hx).1)]
  rw [mem_removedBy, mem_dedup]

theorem mem_removedScreenKeys {ws : Workspace} {t : DesktopManager} {a d s : String}
    (ha : noBar a) (hd : noBar d)
    (htA : ∀ x ∈ t.kwinActivities, noBar x) (htD : ∀ x ∈ t.kwinDesktops, noBar x) :
    DesktopManager.getDesktopKey a d s ∈ DesktopManager.removedScreenKeys ws t ↔
      ((s ∈ t.kwinScreens ∧ s ∉ ws.screens) ∧
        a ∈ t.kwinActivities ∧ d ∈ t.kwinDesktops) := by
  unfold DesktopManager.removedScreenKeys
  rw [getDesktopKey_mem_keysOfS ha hd htA htD]
  rw [mem_removedBy, mem_dedup]

theorem keep_ADS (ws : Workspace) (st : DesktopManager) (hwf : DMwf st) (hws : wsNoBars ws)
    (a d s : String) (haS : a ∈ st.kwinActivities) (hdS : d ∈ st.kwinDesktops)
    (hsS : s ∈ st.kwinScreens) :
    (DesktopManager.getDesktopKey a d s ∉
        DesktopManager.removedScreenKeys ws
          (DesktopManager.updateDesktops ws (DesktopManager.updateActivities ws st)) ∧
      DesktopManager.getDesktopKey a d s ∉
        DesktopManager.removedDesktopKeys ws (DesktopManager.updateActivities ws st) ∧
      DesktopManager.getDesktopKey a d s ∉ DesktopManager.removedActivityKeys ws st) ↔
      (a ∈ ws.activities ∧ d ∈ ws.desktops ∧ s ∈ ws.screens) := by
  have ha : noBar a := hwf.2.1 a haS
  have hd : noBar d := hwf.2.2.1 d hdS
  have h1A : ∀ x ∈ (DesktopManager.updateDesktops ws
      (DesktopManager.updateActivities ws st)).kwinActivities, noBar x := by
    simp only [updateDesktops_kwinActivities, updateActivities_kwinActivities, mem_dedup]
    exact hws.1
  have h1D : ∀ x ∈ (DesktopManager.updateDesktops ws
      (DesktopManager.updateActivities ws st)).kwinDesktops, noBar x := by
    simp only [updateDesktops_kwinDesktops, mem_dedup]
    exact hws.2
  have h2A : ∀ x ∈ (DesktopManager.updateActivities ws st).kwinActivities, noBar x := by
    simp only [updateActivities_kwinActivities, mem_dedup]
    exact hws.1
  have h2D : ∀ x ∈ (DesktopManager.updateActivities ws st).kwinDesktops, noBar x := by
    simp only [updateActivities_kwinDesktops]
    exact hwf.2.2.1
  rw [mem_removedScreenKeys ha hd h1A h1D, mem_removedDesktopKeys ha hd h2A h2D,
    mem_removedActivityKeys ha hd hwf.2.1 hwf.2.2.1]
  simp only [updateActivities_kwinActivities, updateActivities_kwinDesktops,
    updateActivities_kwinScreens, updateDesktops_kwinActivities,
    updateDesktops_kwinDesktops, updateDesktops_kwinScreens,
    updateScreens_kwinActivities, updateScreens_kwinDesktops,
    updateScreens_kwinScreens, mem_dedup]
  tauto

theorem keep_ASD (ws : Workspace) (st : DesktopManager) (hwf : DMwf st) (hws : wsNoBars ws)
    (a d s : String) (haS : a ∈ st.kwinActivities) (hdS : d ∈ st.kwinDesktops)
    (hsS : s ∈ st.kwinScreens) :
    (DesktopManager.getDesktopKey a d s ∉
        DesktopManager.removedDesktopKeys ws
          (DesktopManager.updateScreens ws (DesktopManager.updateActivities ws st)) ∧
      DesktopManager.getDesktopKey a d s ∉
        DesktopManager.removedScreenKeys ws (DesktopManager.updateActivities ws st) ∧
      DesktopManager.getDesktopKey a d s ∉ DesktopManager.removedActivityKeys ws st) ↔
      (a ∈ ws.activities ∧ d ∈ ws.desktops ∧ s ∈ ws.screens) := by
  have ha : noBar a := hwf.2.1 a haS
  have hd : noBar d := hwf.2.2.1 d hdS
  have h1A : ∀ x ∈ (DesktopManager.updateScreens ws
      (DesktopManager.updateActivities ws st)).kwinActivities, noBar x := by
    simp only [updateScreens_kwinActivities, updateActivities_kwinActivities, mem_dedup]
    exact hws.1
  have h1D : ∀ x ∈ (DesktopManager.updateScreens ws
      (DesktopManager.updateActivities ws st)).kwinDesktops, noBar x := by
    simp only [updateScreens_kwinDesktops, updateActivities_kwinDesktops]
    exact hwf.2.2.1
  have h2A : ∀ x ∈ (DesktopManager.updateActivities ws st).kwinActivities, noBar x := by
    simp only [updateActivities_kwinActivities, mem_dedup]
    exact hws.1
  have h2D : ∀ x ∈ (DesktopManager.updateActivities ws st).kwinDesktops, noBar x := by
    simp only [updateActivities_kwinDesktops]
    exact hwf.2.2.1
  rw [mem_removedDesktopKeys ha hd h1A h1D, mem_removedScreenKeys ha hd h2A h2D,
    mem_removedActivityKeys ha hd hwf.2.1 hwf.2.2.1]
  simp only [updateActivities_kwinActivities, updateActivities_kwinDesktops,
    updateActivities_kwinScreens, updateDesktops_kwinActivities,
    updateDesktops_kwinDesktops, updateDesktops_kwinScreens,
    updateScreens_kwinActivities, updateScreens_kwinDesktops,
    updateScreens_kwinScreens, mem_dedup]
  tauto

theorem keep_DAS (ws : Workspace) (st : DesktopManager) (hwf : DMwf st) (hws : wsNoBars ws)
    (a d s : String) (haS : a ∈ st.kwinActivities) (hdS : d ∈ st.kwinDesktops)
    (hsS : s ∈ st.kwinScreens) :
    (DesktopManager.getDesktopKey a d s ∉
        DesktopManager.removedScreenKeys ws
          (DesktopManager.updateActivities ws (DesktopManager.updateDesktops ws st)) ∧
      DesktopManager.getDesktopKey a d s ∉
        DesktopManager.removedActivityKeys ws (DesktopManager.updateDesktops ws st) ∧
      DesktopManager.getDesktopKey a d s ∉ DesktopManager.removedDesktopKeys ws st) ↔
      (a ∈ ws.activities ∧ d ∈ ws.desktops ∧ s ∈ ws.screens) := by
  have ha : noBar a := hwf.2.1 a haS
  have hd : noBar d := hwf.2.2.1 d hdS
  have h1A : ∀ x ∈ (DesktopManager.updateActivities ws
      (DesktopManager.updateDesktops ws st)).kwinActivities, noBar x := by
    simp only [updateActivities_kwinActivities, mem_dedup]
    exact hws.1
  have h1D : ∀ x ∈ (DesktopManager.updateActivities ws
      (DesktopManager.updateDesktops ws st)).kwinDesktops, noBar x := by
    simp only [updateActivities_kwinDesktops, updateDesktops_kwinDesktops, mem_dedup]
    exact hws.2
  have h2A : ∀ x ∈ (DesktopManager.updateDesktops ws st).kwinActivities, noBar x := by
    simp only [updateDesktops_kwinActivities]
    exact hwf.2.1
  have h2D : ∀ x ∈ (DesktopManager.updateDesktops ws st).kwinDesktops, noBar x := by
    simp only [updateDesktops_kwinDesktops, mem_dedup]
    exact hws.2
  rw [mem_removedScreenKeys ha hd h1A h1D, mem_removedActivityKeys ha hd h2A h2D,
    mem_removedDesktopKeys ha hd hwf.2.1 hwf.2.2.1]
  simp only [updateActivities_kwinActivities, updateActivities_kwinDesktops,
    updateActivities_kwinScreens, updateDesktops_kwinActivities,
    updateDesktops_kwinDesktops, updateDesktops_kwinScreens,
    updateScreens_kwinActivities, updateScreens_kwinDesktops,
    updateScreens_kwinScreens, mem_dedup]
  tauto

theorem keep_DSA (ws : Workspace) (st : DesktopManager) (hwf : DMwf st) (hws : wsNoBars ws)
    (a d s : String) (haS : a ∈ st.kwinActivities) (hdS : d ∈ st.kwinDesktops)
    (hsS : s ∈ st.kwinScreens) :
    (DesktopManager.getDesktopKey a d s ∉
        DesktopManager.removedActivityKeys ws
          (DesktopManager.updateScreens ws (DesktopManager.updateDesktops ws st)) ∧
      DesktopManager.getDesktopKey a d s ∉
        DesktopManager.removedScreenKeys ws (DesktopManager.updateDesktops ws st) ∧
      DesktopManager.getDesktopKey a d s ∉ DesktopManager.removedDesktopKeys ws st) ↔
      (a ∈ ws.activities ∧ d ∈ ws.desktops ∧ s ∈ ws.screens) := by
  have ha : noBar a := hwf.2.1 a haS
  have hd : noBar d := hwf.2.2.1 d hdS
  have h1A : ∀ x ∈ (DesktopManager.updateScreens ws
      (DesktopManager.updateDesktops ws st)).kwinActivities, noBar x := by
    simp only [updateScreens_kwinActivities, updateDesktops_kwinActivities]
    exact hwf.2.1
  have h1D : ∀ x ∈ (DesktopManager.updateScreens ws
      (DesktopManager.updateDesktops ws st)).kwinDesktops, noBar x := by
    simp only [updateScreens_kwinDesktops, updateDesktops_kwinDesktops, mem_dedup]
    exact hws.2
  have h2A : ∀ x ∈ (DesktopManager.updateDesktops ws st).kwinActivities, noBar x := by
    simp only [updateDesktops_kwinActivities]
    exact hwf.2.1
  have h2D : ∀ x ∈ (DesktopManager.updateDesktops ws st).kwinDesktops, noBar x := by
    simp only [updateDesktops_kwinDesktops, mem_dedup]
    exact hws.2
  rw [mem_removedActivityKeys ha hd h1A h1D, mem_removedScreenKeys ha hd h2A h2D,
    mem_removedDesktopKeys ha hd hwf.2.1 hwf.2.2.1]
  simp only [updateActivities_kwinActivities, updateActivities_kwinDesktops,
    updateActivities_kwinScreens, updateDesktops_kwinActivities,
    updateDesktops_kwinDesktops, updateDesktops_kwinScreens,
    updateScreens_kwinActivities, updateScreens_kwinDesktops,
    updateScreens_kwinScreens, mem_dedup]
  tauto

theorem keep_SAD (ws : Workspace) (st : DesktopManager) (hwf : DMwf st) (hws : wsNoBars ws)
    (a d s : String) (haS : a ∈ st.kwinActivities) (hdS : d ∈ st.kwinDesktops)
    (hsS : s ∈ st.kwinScreens) :
    (DesktopManager.getDesktopKey a d s ∉
        DesktopManager.removedDesktopKeys ws
          (DesktopManager.updateActivities ws (DesktopManager.updateScreens ws st)) ∧
      DesktopManager.getDesktopKey a d s ∉
        DesktopManager.removedActivityKeys ws (DesktopManager.updateScreens ws st) ∧
      DesktopManager.getDesktopKey a d s ∉ DesktopManager.removedScreenKeys ws st) ↔
      (a ∈ ws.activities ∧ d ∈ ws.desktops ∧ s ∈ ws.screens) := by
  have ha : noBar a := hwf.2.1 a haS
  have hd : noBar d := hwf.2.2.1 d hdS
  have h1A : ∀ x ∈ (DesktopManager.updateActivities ws
      (DesktopManager.updateScreens ws st)).kwinActivities, noBar x := by
    simp only [updateActivities_kwinActivities, mem_dedup]
    exact hws.1
  have h1D : ∀ x ∈ (DesktopManager.updateActivities ws
      (DesktopManager.updateScreens ws st)).kwinDesktops, noBar x := by
    simp only [updateActivities_kwinDesktops, updateScreens_kwinDesktops]
    exact hwf.2.2.1
  have h2A : ∀ x ∈ (DesktopManager.updateScreens ws st).kwinActivities, noBar x := by
    simp only [updateScreens_kwinActivities]
    exact hwf.2.1
  have h2D : ∀ x ∈ (DesktopManager.updateScreens ws st).kwinDesktops, noBar x := by
    simp only [updateScreens_kwinDesktops]
    exact hwf.2.2.1
  rw [mem_removedDesktopKeys ha hd h1A h1D, mem_removedActivityKeys ha hd h2A h2D,
    mem_removedScreenKeys ha hd hwf.2.1 hwf.2.2.1]
  simp only [updateActivities_kwinActivities, updateActivities_kwinDesktops,
    updateActivities_kwinScreens, updateDesktops_kwinActivities,
    updateDesktops_kwinDesktops, updateDesktops_kwinScreens,
    updateScreens_kwinActivities, updateScreens_kwinDesktops,
    updateScreens_kwinScreens, mem_dedup]
  tauto

theorem keep_SDA (ws : Workspace) (st : DesktopManager) (hwf : DMwf st) (hws : wsNoBars ws)
    (a d s : String) (haS : a ∈ st.kwinActivities) (hdS : d ∈ st.kwinDesktops)
    (hsS : s ∈ st.kwinScreens) :
    (DesktopManager.getDesktopKey a d s ∉
        DesktopManager.removedActivityKeys ws
          (DesktopManager.updateDesktops ws (DesktopManager.updateScreens ws st)) ∧
      DesktopManager.getDesktopKey a d s ∉
        DesktopManager.removedDesktopKeys ws (DesktopManager.updateScreens ws st) ∧
      DesktopManager.getDesktopKey a d s ∉ DesktopManager.removedScreenKeys ws st) ↔
      (a ∈ ws.activities ∧ d ∈ ws.desktops ∧ s ∈ ws.screens) := by
  have ha : noBar a := hwf.2.1 a haS
  have hd : noBar d := hwf.2.2.1 d hdS
  have h1A : ∀ x ∈ (DesktopManager.updateDesktops ws
      (DesktopManager.updateScreens ws st)).kwinActivities, noBar x := by
    simp only [updateDesktops_kwinActivities, updateScreens_kwinActivities]
    exact hwf.2.1
  have h1D : ∀ x ∈ (DesktopManager.updateDesktops ws
      (DesktopManager.updateScreens ws st)).kwinDesktops, noBar x := by
    simp only [updateDesktops_kwinDesktops, mem_dedup]
    exact hws.2
  have h2A : ∀ x ∈ (DesktopManager.updateScreens ws st).kwinActivities, noBar x := by
    simp only [updateScreens_kwinActivities]
    exact hwf.2.1
  have h2D : ∀ x ∈ (DesktopManager.updateScreens ws st).kwinDesktops, noBar x := by
    simp only [updateScreens_kwinDesktops]
    exact hwf.2.2.1
  rw [mem_removedActivityKeys ha hd h1A h1D, mem_removedDesktopKeys ha hd h2A h2D,
    mem_removedScreenKeys ha hd hwf.2.1 hwf.2.2.1]
  simp only [updateActivities_kwinActivities, updateActivities_kwinDesktops,
    updateActivities_kwinScreens, updateDesktops_kwinActivities,
    updateDesktops_kwinDesktops, updateDesktops_kwinScreens,
    updateScreens_kwinActivities, updateScreens_kwinDesktops,
    updateScreens_kwinScreens, mem_dedup]
  tauto

/-- Claim C7 fails as stated: the reconciliation passes do not commute on
every registry state. Here the registry cached an empty activity snapshot,
holds an entry at ("a", "d", "s"), and the host now has activity "a" but
no desktops. Running activities-then-desktops destroys the entry (the
desktop pass iterates the refreshed activity snapshot), while
desktops-then-activities leaves it in place (the desktop pass iterates the
stale empty activity snapshot). -/
theorem claim_C7_order_dependent :
    (DesktopManager.updateDesktops wsPre
        (DesktopManager.updateActivities wsPre stNoActCache)).desktops ≠
      (DesktopManager.updateActivities wsPre
        (DesktopManager.updateDesktops wsPre stNoActCache)).desktops := by
  decide

/-- Claim C7 (amended): on well-formed registry states (every entry's
components members of the cached snapshots, separator-free ids, unique
keys and instances), the three reconciliation passes commute: all six run
orders produce the same surviving entries and the same cached snapshots. -/
theorem claim_C7_reconciliation_commutes (ws : Workspace) (st : DesktopManager)
    (hwf : DMwf st) (hws : wsNoBars ws) :
    ((DesktopManager.updateDesktops ws (DesktopManager.updateScreens ws
          (DesktopManager.updateActivities ws st))).desktops =
        (DesktopManager.updateScreens ws (DesktopManager.updateDesktops ws
          (DesktopManager.updateActivities ws st))).desktops ∧
      (DesktopManager.updateDesktops ws (DesktopManager.updateScreens ws
          (DesktopManager.updateActivities ws st))).kwinActivities =
        (DesktopManager.updateScreens ws (DesktopManager.updateDesktops ws
          (DesktopManager.updateActivities ws st))).kwinActivities ∧
      (DesktopManager.updateDesktops ws (DesktopManager.updateScreens ws
          (DesktopManager.updateActivities ws st))).kwinDesktops =
        (DesktopManager.updateScreens ws (DesktopManager.updateDesktops ws
          (DesktopManager.updateActivities ws st))).kwinDesktops ∧
      (DesktopManager.updateDesktops ws (DesktopManager.updateScreens ws
          (DesktopManager.updateActivities ws st))).kwinScreens =
        (DesktopManager.updateScreens ws (DesktopManager.updateDesktops ws
          (DesktopManager.updateActivities ws st))).kwinScreens) ∧
      ((DesktopManager.updateScreens ws (DesktopManager.updateActivities ws
            (DesktopManager.updateDesktops ws st))).desktops =
          (DesktopManager.updateScreens ws (DesktopManager.updateDesktops ws
            (DesktopManager.updateActivities ws st))).desktops ∧
        (DesktopManager.updateScreens ws (DesktopManager.updateActivities ws
            (DesktopManager.updateDesktops ws st))).kwinActivities =
          (DesktopManager.updateScreens ws (DesktopManager.updateDesktops ws
            (DesktopManager.updateActivities ws st))).kwinActivities ∧
        (DesktopManager.updateScreens ws (DesktopManager.updateActivities ws
            (DesktopManager.updateDesktops ws st))).kwinDesktops =
          (DesktopManager.updateScreens ws (DesktopManager.updateDesktops ws
            (DesktopManager.updateActivities ws st))).kwinDesktops ∧
        (DesktopManager.updateScreens ws (DesktopManager.updateActivities ws
            (DesktopManager.updateDesktops ws st))).kwinScreens =
          (DesktopManager.updateScreens ws (DesktopManager.updateDesktops ws
            (DesktopManager.updateActivities ws st))).kwinScreens) ∧
      ((DesktopManager.updateActivities ws (DesktopManager.updateScreens ws
            (DesktopManager.updateDesktops ws st))).desktops =
          (DesktopManager.updateScreens ws (DesktopManager.updateDesktops ws
            (DesktopManager.updateActivities ws st))).desktops ∧
        (DesktopManager.updateActivities ws (DesktopManager.updateScreens ws
            (DesktopManager.updateDesktops ws st))).kwinActivities =
          (DesktopManager.updateScreens ws (DesktopManager.updateDesktops ws
            (DesktopManager.updateActivities ws st))).kwinActivities ∧
        (DesktopManager.updateActivities ws (DesktopManager.updateScreens ws
            (DesktopManager.updateDesktops ws st))).kwinDesktops =
          (DesktopManager.updateScreens ws (DesktopManager.updateDesktops ws
            (DesktopManager.updateActivities ws st))).kwinDesktops ∧
        (DesktopManager.updateActivities ws (DesktopManager.updateScreens ws
            (DesktopManager.updateDesktops ws st))).kwinScreens =
          (DesktopManager.updateScreens ws (DesktopManager.updateDesktops ws
            (DesktopManager.updateActivities ws st))).kwinScreens) ∧
      ((DesktopManager.updateDesktops ws (DesktopManager.updateActivities ws
            (DesktopManager.updateScreens ws st))).desktops =
          (DesktopManager.updateScreens ws (DesktopManager.updateDesktops ws
            (DesktopManager.updateActivities ws st))).desktops ∧
        (DesktopManager.updateDesktops ws (DesktopManager.updateActivities ws
            (DesktopManager.updateScreens ws st))).kwinActivities =
          (DesktopManager.updateScreens ws (DesktopManager.updateDesktops ws
            (DesktopManager.updateActivities ws st))).kwinActivities ∧
        (DesktopManager.updateDesktops ws (DesktopManager.updateActivities ws
            (DesktopManager.updateScreens ws st))).kwinDesktops =
          (DesktopManager.updateScreens ws (DesktopManager.updateDesktops ws
            (DesktopManager.updateActivities ws st))).kwinDesktops ∧
        (DesktopManager.updateDesktops ws (DesktopManager.updateActivities ws
            (DesktopManager.updateScreens ws st))).kwinScreens =
          (DesktopManager.updateScreens ws (DesktopManager.updateDesktops ws
            (DesktopManager.updateActivities ws st))).kwinScreens) ∧
      ((DesktopManager.updateActivities ws (DesktopManager.updateDesktops ws
            (DesktopManager.updateScreens ws st))).desktops =
          (DesktopManager.updateScreens ws (DesktopManager.updateDesktops ws
            (DesktopManager.updateActivities ws st))).desktops ∧
        (DesktopManager.updateActivities ws (DesktopManager.updateDesktops ws
            (DesktopManager.updateScreens ws st))).kwinActivities =
          (DesktopManager.updateScreens ws (DesktopManager.updateDesktops ws
            (DesktopManager.updateActivities ws st))).kwinActivities ∧
        (DesktopManager.updateActivities ws (DesktopManager.updateDesktops ws
            (DesktopManager.updateScreens ws st))).kwinDesktops =
          (DesktopManager.updateScreens ws (DesktopManager.updateDesktops ws
            (DesktopManager.updateActivities ws st))).kwinDesktops ∧
        (DesktopManager.updateActivities ws (DesktopManager.updateDesktops ws
            (DesktopManager.updateScreens ws st))).kwinScreens =
          (DesktopManager.updateScreens ws (DesktopManager.updateDesktops ws
            (DesktopManager.updateActivities ws st))).kwinScreens) := by
  refine ⟨⟨?_, ?_, ?_, ?_⟩, ⟨?_, ?_, ?_, ?_⟩, ⟨?_, ?_, ?_, ?_⟩,
    ⟨?_, ?_, ?_, ?_⟩, ⟨?_, ?_, ?_, ?_⟩⟩
  case _ =>
    simp only [updateScreens_desktops, updateDesktops_desktops,
      updateActivities_desktops, List.filter_filter]
    apply List.filter_congr
    intro e he
    obtain ⟨a, haS, d, hdS, s, hsS, hek⟩ := hwf.1 e he
    apply bool_eq_of_iff
    simp only [Bool.and_eq_true, Bool.not_eq_true', decide_eq_false_iff_not]
    rw [hek]
    rw [keep_ASD ws st hwf hws a d s haS hdS hsS,
      keep_ADS ws st hwf hws a d s haS hdS hsS]
  case _ =>
    simp only [updateActivities_kwinActivities, updateActivities_kwinDesktops,
      updateActivities_kwinScreens, updateDesktops_kwinActivities,
      updateDesktops_kwinDesktops, updateDesktops_kwinScreens,
      updateScreens_kwinActivities, updateScreens_kwinDesktops,
      updateScreens_kwinScreens]
  case _ =>
    simp only [updateActivities_kwinActivities, updateActivities_kwinDesktops,
      updateActivities_kwinScreens, updateDesktops_kwinActivities,
      updateDesktops_kwinDesktops, updateDesktops_kwinScreens,
      updateScreens_kwinActivities, updateScreens_kwinDesktops,
      updateScreens_kwinScreens]
  case _ =>
    simp only [updateActivities_kwinActivities, updateActivities_kwinDesktops,
      updateActivities_kwinScreens, updateDesktops_kwinActivities,
      updateDesktops_kwinDesktops, updateDesktops_kwinScreens,
      updateScreens_kwinActivities, updateScreens_kwinDesktops,
      updateScreens_kwinScreens]
  case _ =>
    simp only [updateScreens_desktops, updateDesktops_desktops,
      updateActivities_desktops, List.filter_filter]
    apply List.filter_congr
    intro e he
    obtain ⟨a, haS, d, hdS, s, hsS, hek⟩ := hwf.1 e he
    apply bool_eq_of_iff
    simp only [Bool.and_eq_true, Bool.not_eq_true', decide_eq_false_iff_not]
    rw [hek]
    rw [keep_DAS ws st hwf hws a d s haS hdS hsS,
      keep_ADS ws st hwf hws a d s haS hdS hsS]
  case _ =>
    simp only [updateActivities_kwinActivities, updateActivities_kwinDesktops,
      updateActivities_kwinScreens, updateDesktops_kwinActivities,
      updateDesktops_kwinDesktops, updateDesktops_kwinScreens,
      updateScreens_kwinActivities, updateScreens_kwinDesktops,
      updateScreens_kwinScreens]
  case _ =>
    simp only [updateActivities_kwinActivities, updateActivities_kwinDesktops,
      updateActivities_kwinScreens, updateDesktops_kwinActivities,
      updateDesktops_kwinDesktops, updateDesktops_kwinScreens,
      updateScreens_kwinActivities, updateScreens_kwinDesktops,
      updateScreens_kwinScreens]
  case _ =>
    simp only [updateActivities_kwinActivities, updateActivities_kwinDesktops,
      updateActivities_kwinScreens, updateDesktops_kwinActivities,
      updateDesktops_kwinDesktops, updateDesktops_kwinScreens,
      updateScreens_kwinActivities, updateScreens_kwinDesktops,
      updateScreens_kwinScreens]
  case _ =>
    simp only [updateScreens_desktops, updateDesktops_desktops,
      updateActivities_desktops, List.filter_filter]
    apply List.filter_congr
    intro e he
    obtain ⟨a, haS, d, hdS, s, hsS, hek⟩ := hwf.1 e he
    apply bool_eq_of_iff
    simp only [Bool.and_eq_true, Bool.not_eq_true', decide_eq_false_iff_not]
    rw [hek]
    rw [keep_DSA ws st hwf hws a d s haS hdS hsS,
      keep_ADS ws st hwf hws a d s haS hdS hsS]
  case _ =>
    simp only [updateActivities_kwinActivities, updateActivities_kwinDesktops,
      updateActivities_kwinScreens, updateDesktops_kwinActivities,
      updateDesktops_kwinDesktops, updateDesktops_kwinScreens,
      updateScreens_kwinActivities, updateScreens_kwinDesktops,
      updateScreens_kwinScreens]
  case _ =>
    simp only [updateActivities_kwinActivities, updateActivities_kwinDesktops,
      updateActivities_kwinScreens, updateDesktops_kwinActivities,
      updateDesktops_kwinDesktops, updateDesktops_kwinScreens,
      updateScreens_kwinActivities, updateScreens_kwinDesktops,
      updateScreens_kwinScreens]
  case _ =>
    simp only [updateActivities_kwinActivities, updateActivities_kwinDesktops,
      updateActivities_kwinScreens, updateDesktops_kwinActivities,
      updateDesktops_kwinDesktops, updateDesktops_kwinScreens,
      updateScreens_kwinActivities, updateScreens_kwinDesktops,
      updateScreens_kwinScreens]
  case _ =>
    simp only [updateScreens_desktops, updateDesktops_desktops,
      updateActivities_desktops, List.filter_filter]
    apply List.filter_congr
    intro e he
    obtain ⟨a, haS, d, hdS, s, hsS, hek⟩ := hwf.1 e he
    apply bool_eq_of_iff
    simp only [Bool.and_eq_true, Bool.not_eq_true', decide_eq_false_iff_not]
    rw [hek]
    rw [keep_SAD ws st hwf hws a d s haS hdS hsS,
      keep_ADS ws st hwf hws a d s haS hdS hsS]
  case _ =>
    simp only [updateActivities_kwinActivities, updateActivities_kwinDesktops,
      updateActivities_kwinScreens, updateDesktops_kwinActivities,
      updateDesktops_kwinDesktops, updateDesktops_kwinScreens,
      updateScreens_kwinActivities, updateScreens_kwinDesktops,
      updateScreens_kwinScreens]
  case _ =>
    simp only [updateActivities_kwinActivities, updateActivities_kwinDesktops,
      updateActivities_kwinScreens, updateDesktops_kwinActivities,
      updateDesktops_kwinDesktops, updateDesktops_kwinScreens,
      updateScreens_kwinActivities, updateScreens_kwinDesktops,
      updateScreens_kwinScreens]
  case _ =>
    simp only [updateActivities_kwinActivities, updateActivities_kwinDesktops,
      updateActivities_kwinScreens, updateDesktops_kwinActivities,
      updateDesktops_kwinDesktops, updateDesktops_kwinScreens,
      updateScreens_kwinActivities, updateScreens_kwinDesktops,
      updateScreens_kwinScreens]
  case _ =>
    simp only [updateScreens_desktops, updateDesktops_desktops,
      updateActivities_desktops, List.filter_filter]
    apply List.filter_congr
    intro e he
    obtain ⟨a, haS, d, hdS, s, hsS, hek⟩ := hwf.1 e he
    apply bool_eq_of_iff
    simp only [Bool.and_eq_true, Bool.not_eq_true', decide_eq_false_iff_not]
    rw [hek]
    rw [keep_SDA ws st hwf hws a d s haS hdS hsS,
      keep_ADS ws st hwf hws a d s haS hdS hsS]
  case _ =>
    simp only [updateActivities_kwinActivities, updateActivities_kwinDesktops,
      updateActivities_kwinScreens, updateDesktops_kwinActivities,
      updateDesktops_kwinDesktops, updateDesktops_kwinScreens,
      updateScreens_kwinActivities, updateScreens_kwinDesktops,
      updateScreens_kwinScreens]
  case _ =>
    simp only [updateActivities_kwinActivities, updateActivities_kwinDesktops,
      updateActivities_kwinScreens, updateDesktops_kwinActivities,
      updateDesktops_kwinDesktops, updateDesktops_kwinScreens,
      updateScreens_kwinActivities, updateScreens_kwinDesktops,
      updateScreens_kwinScreens]
  case _ =>
    simp only [updateActivities_kwinActivities, updateActivities_kwinDesktops,
      updateActivities_kwinScreens, updateDesktops_kwinActivities,
      updateDesktops_kwinDesktops, updateDesktops_kwinScreens,
      updateScreens_kwinActivities, updateScreens_kwinDesktops,
      updateScreens_kwinScreens]

theorem claim_C7_reconciliation_commutes_witness :
    (DesktopManager.updateDesktops wsNoAct (DesktopManager.updateScreens wsNoAct
        (DesktopManager.updateActivities wsNoAct stOne))).desktops =
      (DesktopManager.updateScreens wsNoAct (DesktopManager.updateDesktops wsNoAct
        (DesktopManager.updateActivities wsNoAct stOne))).desktops :=
  (claim_C7_reconciliation_commutes wsNoAct stOne (by decide) (by decide)).1.1

end Karousel
